import Mathlib

/-!
Verification of the web-search client adapter (`src/index.js` and
`src/tools/bigmodel-web-search-prime.ts`).

The development shallowly embeds the two implementations:

* a JSON value model `Json` with an abstract model of the JavaScript
  builtins `JSON.stringify` / `JSON.parse` (strings are either opaque
  texts, `JStr.atom`, or the canonical serialization of a JSON value,
  `JStr.enc`; `jsonParse` is the left inverse of `jsonStringify` and
  fails on opaque texts, which models undecodable provider output);
* the payload unwrapper (`parsePossiblyNestedJson` / `parseItemsFromBlocks`
  from the TS file, `_parseNestedJson` / `_extractArrayFromBlocks` from
  the JS file);
* the item normalizers (`normalizeItems` from the TS file,
  `_normalizeItems` from the JS file);
* the two orchestrators (`bigmodelWebSearchPrime`, `webSearchPrime`)
  as pure state-passing functions over a connection-cache state,
  returning the result together with the trace of network operations
  (connect / listTools / callTool) they perform.
-/

mutual

/-- JSON/JavaScript values.  Numbers are modelled as integers (no claim
depends on float behaviour); objects are association lists with unique
keys (JavaScript objects are maps).  Strings are `JStr` values, mutually
defined so that a string can be the serialization of another value. -/
inductive Json where
  | null : Json
  | bool : Bool → Json
  | num : Int → Json
  | str : JStr → Json
  | arr : List Json → Json
  | obj : List (String × Json) → Json

/-- JavaScript strings, as seen by the unwrapping pipeline: either an
opaque text (`atom`), or the result of `JSON.stringify` applied to a
JSON value (`enc`).  `JSON.stringify` never returns the empty string,
so `enc` values are treated as non-empty (truthy). -/
inductive JStr where
  | atom : String → JStr
  | enc : Json → JStr

end

mutual

/-- Structural equality test for `Json`. -/
def Json.beq : Json → Json → Bool
  | Json.null, Json.null => true
  | Json.bool a, Json.bool b => a == b
  | Json.num a, Json.num b => a == b
  | Json.str a, Json.str b => JStr.beq a b
  | Json.arr a, Json.arr b => Json.beqList a b
  | Json.obj a, Json.obj b => Json.beqFields a b
  | _, _ => false
termination_by structural a => a

/-- Equality test for lists of `Json`. -/
def Json.beqList : List Json → List Json → Bool
  | [], [] => true
  | a :: as_, b :: bs => Json.beq a b && Json.beqList as_ bs
  | _, _ => false
termination_by structural a => a

/-- Equality test for object field lists. -/
def Json.beqFields : List (String × Json) → List (String × Json) → Bool
  | [], [] => true
  | (k, v) :: as_, (l, w) :: bs => k == l && Json.beq v w && Json.beqFields as_ bs
  | _, _ => false
termination_by structural a => a

/-- Structural equality test for `JStr`. -/
def JStr.beq : JStr → JStr → Bool
  | JStr.atom a, JStr.atom b => a == b
  | JStr.enc a, JStr.enc b => Json.beq a b
  | _, _ => false
termination_by structural a => a

end

instance : BEq Json := ⟨Json.beq⟩

instance : BEq JStr := ⟨JStr.beq⟩

/- ===== JavaScript value semantics helpers ===== -/

/-- Property lookup `v[k]`: `none` models `undefined` (missing property,
or a receiver on which the probed fields cannot exist). -/
def jget (v : Json) (k : String) : Option Json :=
  match v with
  | Json.obj fields => fields.lookup k
  | _ => none

/-- Value equality of possibly-undefined values, as JavaScript `===`
behaves on comparisons against a string literal (`undefined`, `null`
and non-strings are all unequal to it). -/
def optJsonBeq (a b : Option Json) : Bool :=
  match a, b with
  | none, none => true
  | some x, some y => Json.beq x y
  | _, _ => false

/-- Emptiness of a JavaScript string.  `JSON.stringify` never returns
the empty string, so `enc` values are non-empty. -/
def JStr.isEmptyStr : JStr → Bool
  | JStr.atom s => s.isEmpty
  | JStr.enc _ => false

/-- JavaScript truthiness of a value. -/
def jsTruthy : Json → Bool
  | Json.null => false
  | Json.bool b => b
  | Json.num n => n != 0
  | Json.str s => !(JStr.isEmptyStr s)
  | Json.arr _ => true
  | Json.obj _ => true

/-- Truthiness of a possibly-undefined value (`undefined` is falsy). -/
def jsTruthyOpt : Option Json → Bool
  | none => false
  | some v => jsTruthy v

/-- Nullish coalescing `a ?? b` on possibly-undefined values. -/
def jsCoalesce (a b : Option Json) : Option Json :=
  match a with
  | none => b
  | some Json.null => b
  | some v => some v

/-- Logical or `a || b` on possibly-undefined values: the first operand
if truthy, otherwise the second operand (whatever its value). -/
def jsOr (a b : Option Json) : Option Json :=
  if jsTruthyOpt a then a else b

/- ===== Abstract model of the JSON builtins ===== -/

/-- Abstract model of `JSON.stringify` (an external platform builtin,
not repository code): serialization is modelled by the injective
constructor `JStr.enc`. -/
def jsonStringify (v : Json) : JStr := JStr.enc v

/-- Abstract model of `JSON.parse` (external platform builtin): it
inverts `jsonStringify` and fails on opaque texts, which model
provider output that is not valid JSON. -/
def jsonParse : JStr → Option Json
  | JStr.atom _ => none
  | JStr.enc v => some v

/- ===== Payload unwrapper ===== -/

/-- The decode loop shared by `parsePossiblyNestedJson` (TS) and
`_parseNestedJson` (JS): up to `n` rounds; a round decodes only if the
current value is still a string, and a decode failure stops the loop
(`break`) keeping the current value. -/
def parseRounds : Nat → Json → Json
  | 0, v => v
  | Nat.succ n, v =>
    match v with
    | Json.str s =>
      match jsonParse s with
      | some w => parseRounds n w
      | none => Json.str s
    | _ => v

/-- `parsePossiblyNestedJson` from `src/tools/bigmodel-web-search-prime.ts`:
at most two rounds of JSON decoding of a text. -/
def parsePossiblyNestedJson (text : JStr) : Json :=
  parseRounds 2 (Json.str text)

/-- `_parseNestedJson` from `src/index.js`: identical two-round decode. -/
def jsParseNestedJson (text : JStr) : Json :=
  parseRounds 2 (Json.str text)

/-- The wrapper-object probe from the unwrappers:
`(Array.isArray(o.items) && o.items) || (Array.isArray(o.results) && o.results) || (Array.isArray(o.data) && o.data) || null` —
the first of `items`, `results`, `data` whose value is an array. -/
def wrapperArray (o : Json) : Option (List Json) :=
  match jget o "items" with
  | some (Json.arr xs) => some xs
  | _ =>
    match jget o "results" with
    | some (Json.arr xs) => some xs
    | _ =>
      match jget o "data" with
      | some (Json.arr xs) => some xs
      | _ => none

/-- Records contributed by a single content block: the block qualifies
only when its `type` field equals the string `text` and its `text`
field is a string; the decoded value contributes its elements if it is
an array, else the probed wrapper array if it is a keyed structure,
else nothing.  (`null` is falsy so the `parsed && typeof parsed === 'object'`
branch does not fire on it; decode failure leaves a string, which
contributes nothing.) -/
def blockRecords (b : Json) : List Json :=
  if optJsonBeq (jget b "type") (some (Json.str (JStr.atom "text"))) = false
  then []
  else
    match jget b "text" with
    | some (Json.str s) =>
      match parsePossiblyNestedJson s with
      | Json.arr xs => xs
      | Json.obj fields =>
        match wrapperArray (Json.obj fields) with
        | some xs => xs
        | none => []
      | _ => []
    | _ => []

/-- `parseItemsFromBlocks` from the TS file: concatenation, in block
order, of the records contributed by each block. -/
def parseItemsFromBlocks : List Json → List Json
  | [] => []
  | b :: bs => blockRecords b ++ parseItemsFromBlocks bs

/-- `_extractArrayFromBlocks` from `src/index.js`: the same per-block
logic (its extra `!b` guard is subsumed: a falsy block has no `type`
field equal to `text`). -/
def jsExtractArrayFromBlocks : List Json → List Json
  | [] => []
  | b :: bs => blockRecords b ++ jsExtractArrayFromBlocks bs

/- ===== Item normalizers ===== -/

/-- The `!r || typeof r !== 'object'` record guard shared by both
normalizers: truthy and of type `object` (objects and arrays; `null`
is falsy, so it is excluded). -/
def isObjectLike : Json → Bool
  | Json.obj _ => true
  | Json.arr _ => true
  | _ => false

/-- URL alias chain of the TS `normalizeItems`:
`o.link ?? o.url ?? o.href ?? (typeof o.sourceUrl === 'string' ? o.sourceUrl : undefined)`. -/
def tsRawUrl (r : Json) : Option Json :=
  jsCoalesce (jget r "link")
    (jsCoalesce (jget r "url")
      (jsCoalesce (jget r "href")
        (match jget r "sourceUrl" with
         | some (Json.str s) => some (Json.str s)
         | _ => none)))

/-- Resolved URL of a record in the TS normalizer: the alias-chain
value when it is a truthy string, otherwise the record is dropped
(`if (!url || typeof url !== 'string') continue`). -/
def tsResolveUrl (r : Json) : Option JStr :=
  match tsRawUrl r with
  | some (Json.str s) => if JStr.isEmptyStr s then none else some s
  | _ => none

/-- Canonical item of the TS file (`WebSearchPrimeItem`).  Field values
can be arbitrary JSON at runtime despite the `as string` casts, so they
are modelled as (possibly absent) JSON values. -/
structure WebSearchPrimeItem where
  title : Json
  url : JStr
  summary : Option Json
  icon : Option Json
  siteName : Option Json
  media : Option Json
  publishedAt : Option Json
  refer : Option Json
  raw : Json

/-- Field reconciliation of the TS `normalizeItems` for a kept record. -/
def tsMkItem (r : Json) (url : JStr) : WebSearchPrimeItem :=
  { title :=
      (jsCoalesce (jget r "title")
        (jsCoalesce (jget r "name")
          (jsCoalesce (jget r "page_title") (some (Json.str url))))).getD
        (Json.str url)
    url := url
    summary :=
      jsCoalesce (jget r "content")
        (jsCoalesce (jget r "summary") (jget r "description"))
    icon := jsCoalesce (jget r "icon") (jget r "favicon")
    siteName :=
      jsCoalesce (jget r "website")
        (jsCoalesce (jget r "site") (jget r "siteName"))
    media := jsCoalesce (jget r "media") none
    publishedAt :=
      jsCoalesce (jget r "publish_date")
        (jsCoalesce (jget r "published_at") (jsCoalesce (jget r "date") none))
    refer := jsCoalesce (jget r "refer") none
    raw := r }

/-- Loop of the TS `normalizeItems` with the running `seen` URL set. -/
def normalizeItemsGo : List Json → List JStr → List WebSearchPrimeItem
  | [], _ => []
  | r :: rs, seen =>
    if isObjectLike r = false then normalizeItemsGo rs seen
    else
      match tsResolveUrl r with
      | none => normalizeItemsGo rs seen
      | some url =>
        if seen.contains url then normalizeItemsGo rs seen
        else tsMkItem r url :: normalizeItemsGo rs (url :: seen)

/-- `normalizeItems` from `src/tools/bigmodel-web-search-prime.ts`. -/
def normalizeItems (raw : List Json) : List WebSearchPrimeItem :=
  normalizeItemsGo raw []

/-- URL alias chain of the JS `_normalizeItems`:
`r.link || r.url || r.href || r.sourceUrl` (truthiness-based). -/
def jsRawUrl (r : Json) : Option Json :=
  jsOr (jget r "link")
    (jsOr (jget r "url") (jsOr (jget r "href") (jget r "sourceUrl")))

/-- Resolved URL of a record in the JS normalizer
(`if (!link || typeof link !== 'string') continue`). -/
def jsResolveUrl (r : Json) : Option JStr :=
  match jsRawUrl r with
  | some (Json.str s) => if JStr.isEmptyStr s then none else some s
  | _ => none

/-- Item shape produced by the JS `_normalizeItems` object literal. -/
structure JsItem where
  title : Json
  url : JStr
  summary : Option Json
  icon : Option Json
  siteName : Option Json
  media : Option Json
  publishedAt : Option Json
  refer : Option Json
  raw : Json

/-- Field reconciliation of the JS `_normalizeItems` for a kept record. -/
def jsMkItem (r : Json) (url : JStr) : JsItem :=
  { title :=
      (jsOr (jget r "title")
        (jsOr (jget r "name") (some (Json.str url)))).getD (Json.str url)
    url := url
    summary :=
      jsOr (jget r "content") (jsOr (jget r "summary") (jget r "description"))
    icon := jsOr (jget r "icon") (jget r "favicon")
    siteName :=
      jsOr (jget r "website") (jsOr (jget r "site") (jget r "siteName"))
    media := jget r "media"
    publishedAt :=
      jsOr (jget r "publish_date") (jsOr (jget r "published_at") (jget r "date"))
    refer := jget r "refer"
    raw := r }

/-- Loop of the JS `_normalizeItems` with the running `seen` URL set. -/
def jsNormalizeItemsGo : List Json → List JStr → List JsItem
  | [], _ => []
  | r :: rs, seen =>
    if isObjectLike r = false then jsNormalizeItemsGo rs seen
    else
      match jsResolveUrl r with
      | none => jsNormalizeItemsGo rs seen
      | some url =>
        if seen.contains url then jsNormalizeItemsGo rs seen
        else jsMkItem r url :: jsNormalizeItemsGo rs (url :: seen)

/-- `_normalizeItems` from `src/index.js`. -/
def jsNormalizeItems (rawArr : List Json) : List JsItem :=
  jsNormalizeItemsGo rawArr []

/- ===== Connection cache and orchestration ===== -/

/-- Signed 32-bit wrap (the JavaScript `| 0` coercion). -/
def toInt32 (n : Int) : Int :=
  let m := n % 4294967296
  let m2 := if m < 0 then m + 4294967296 else m
  if m2 < 2147483648 then m2 else m2 - 4294967296

/-- `_hashKey` (`src/index.js`) / `hashKey` (TS), identical rolling
hash `h = (h << 5) - h + charCodeAt(i); h |= 0`, rendered `k<abs(h)>`.
Characters are modelled by their code points (UTF-16 code units
coincide with code points on the basic multilingual plane). -/
def hashKey (s : String) : String :=
  let h := s.data.foldl
    (fun h c => toInt32 (toInt32 (h * 32) - h + Int.ofNat c.toNat)) 0
  "k" ++ toString h.natAbs

/-- The module-level connection cache (`clientCache` / `_clientCache`):
the key-to-session mapping, plus a counter allocating identities for
established sessions (every establishment consumes the next identity,
whether or not the session is stored). -/
structure CacheState where
  entries : List (String × Nat)
  nextId : Nat

/-- Network operations observable at the transport boundary. -/
inductive NetCall where
  | connect (endpoint : String) (headers : List (String × String))
  | listTools
  | callTool (name : String) (args : List (String × Json))

/-- Assignment of one object key (a later write overrides an earlier
one in place, preserving key order). -/
def objSet {α : Type} (o : List (String × α)) (k : String) (v : α) :
    List (String × α) :=
  if (o.map Prod.fst).contains k then
    o.map (fun kv => if kv.1 = k then (k, v) else kv)
  else o ++ [(k, v)]

/-- Object spread `{ ...base, ...extra }` on field lists. -/
def objSpread {α : Type} (base extra : List (String × α)) :
    List (String × α) :=
  extra.foldl (fun acc kv => objSet acc kv.1 kv.2) base

/-- `mergedHeaders` of `createClientPromise` (TS):
`{ Authorization: 'Bearer ' + apiKey, ...(headers ?? {}) }` — the
caller-supplied headers are spread after the Authorization entry, so a
caller-supplied key overrides it. -/
def mergedHeaders (apiKey : String)
    (headers : Option (List (String × String))) : List (String × String) :=
  objSpread [("Authorization", "Bearer " ++ apiKey)] (headers.getD [])

/-- The `code` values of `BigModelMCPError` (TS). -/
inductive ErrCode where
  | MISSING_API_KEY
  | MCP_TOOL_ERROR
  | INVALID_RESPONSE
  | TRANSPORT_OR_CONNECT_ERROR

/-- `BigModelMCPError` (TS): message, code, optional diagnostic detail. -/
structure BigModelMCPError where
  message : String
  code : ErrCode
  details : Option Json

def DEFAULT_ENDPOINT : String :=
  "https://open.bigmodel.cn/api/mcp/web_search_prime/mcp"

def TOOL_NAME : String := "webSearchPrime"

/-- `BigModelMCPOptions` (TS); absent fields are `none`. -/
structure BigModelMCPOptions where
  apiKey : Option String := none
  endpoint : Option String := none
  transportHeaders : Option (List (String × String)) := none
  reuseConnection : Option Bool := none
  validateToolAvailability : Option Bool := none
  timeoutMs : Option Int := none

/-- External behaviour a single TS call can observe: the ambient
credential, whether connecting succeeds, the listTools reply (`none`
models a rejected listing), the callTool reply (`none` models a
rejected invocation), how long the invocation takes, and the two
`Date.now()` readings taken by the call. -/
structure TsWorld where
  envApiKey : Option String
  connectOk : Bool
  toolsReply : Option (List String)
  callReply : Option Json
  callDuration : Int
  startTime : Int
  endTime : Int

/-- The `meta` record of `WebSearchPrimeOutput` (TS). -/
structure WebSearchPrimeMeta where
  endpoint : String
  toolName : String
  tookMs : Int
  requestedCount : Option Json
  returnedCount : Nat
  reusedConnection : Bool

/-- `WebSearchPrimeOutput` (TS). -/
structure WebSearchPrimeOutput where
  items : List WebSearchPrimeItem
  rawBlocks : List Json
  meta : WebSearchPrimeMeta

/-- Model of `String.prototype.trim` (external platform builtin):
strip leading and trailing whitespace. -/
def jsTrim (s : String) : String :=
  String.mk
    ((s.data.dropWhile Char.isWhitespace).reverse.dropWhile
      Char.isWhitespace).reverse

/-- Credential resolution of the TS entry:
`options.apiKey ?? process.env.BIGMODEL_API_KEY`. -/
def tsResolveApiKey (options : BigModelMCPOptions)
    (envApiKey : Option String) : Option String :=
  match options.apiKey with
  | some k => some k
  | none => envApiKey

/-- The credential gate of the TS entry:
`!apiKey || apiKey.trim() === ''` (absent, empty, or whitespace-only). -/
def blankKey : Option String → Bool
  | none => true
  | some k => k.isEmpty || (jsTrim k == "")

/-- `getOrCreateClient` (TS): a cache hit returns the stored session
with no network activity; a miss creates the connection promise,
stores it under `endpoint::hashKey(apiKey)` before it settles, and
fails the call (entry kept) if connecting fails. -/
def getOrCreateClient (endpoint apiKey : String)
    (headers : Option (List (String × String))) (w : TsWorld)
    (st : CacheState) :
    Except BigModelMCPError Nat × CacheState × List NetCall :=
  let key := endpoint ++ "::" ++ hashKey apiKey
  match st.entries.lookup key with
  | some cid => (.ok cid, st, [])
  | none =>
    let st1 : CacheState := ⟨st.entries ++ [(key, st.nextId)], st.nextId + 1⟩
    let tr := [NetCall.connect endpoint (mergedHeaders apiKey headers)]
    if w.connectOk then (.ok st.nextId, st1, tr)
    else
      (.error ⟨"Failed to connect MCP client", .TRANSPORT_OR_CONNECT_ERROR,
        none⟩, st1, tr)

/-- `createEphemeralClient` (TS): always establishes a fresh session
and never touches the cache mapping. -/
def createEphemeralClient (endpoint apiKey : String)
    (headers : Option (List (String × String))) (w : TsWorld)
    (st : CacheState) :
    Except BigModelMCPError Nat × CacheState × List NetCall :=
  let st1 : CacheState := ⟨st.entries, st.nextId + 1⟩
  let tr := [NetCall.connect endpoint (mergedHeaders apiKey headers)]
  if w.connectOk then (.ok st.nextId, st1, tr)
  else
    (.error ⟨"Failed to connect MCP client", .TRANSPORT_OR_CONNECT_ERROR,
      none⟩, st1, tr)

/-- The session-acquisition step of the TS entry
(`options.reuseConnection !== false` selects the cached path,
otherwise the ephemeral path). -/
def tsAcquire (reused : Bool) (endpoint apiKey : String)
    (headers : Option (List (String × String))) (w : TsWorld)
    (st : CacheState) :
    Except BigModelMCPError Nat × CacheState × List NetCall :=
  if reused then getOrCreateClient endpoint apiKey headers w st
  else createEphemeralClient endpoint apiKey headers w st

/-- `withSoftTimeout` (TS), on settled outcomes: no deadline (absent,
zero, or negative — `!timeoutMs || timeoutMs <= 0`) passes the
underlying outcome through; otherwise the underlying outcome is kept
when it settles strictly before the deadline, else the call rejects
with the soft-timeout `BigModelMCPError`, whose code is
`TRANSPORT_OR_CONNECT_ERROR`. -/
def withSoftTimeout (outcome : Except BigModelMCPError Json)
    (timeoutMs : Option Int) (duration : Int) :
    Except BigModelMCPError Json :=
  match timeoutMs with
  | none => outcome
  | some t =>
    if t ≤ 0 then outcome
    else if duration < t then outcome
    else
      .error ⟨"MCP call soft-timeout after " ++ toString t ++ "ms",
        .TRANSPORT_OR_CONNECT_ERROR, none⟩

/-- `bigmodelWebSearchPrime` (TS), as a pure state-passing function
over the connection cache, also returning the trace of network
operations the call performs. -/
def bigmodelWebSearchPrime (params : List (String × Json))
    (options : BigModelMCPOptions) (w : TsWorld) (st : CacheState) :
    Except BigModelMCPError WebSearchPrimeOutput × CacheState × List NetCall :=
  let endpoint := options.endpoint.getD DEFAULT_ENDPOINT
  let apiKeyOpt := tsResolveApiKey options w.envApiKey
  if blankKey apiKeyOpt then
    (.error ⟨"Missing BigModel API key: pass options.apiKey or set BIGMODEL_API_KEY",
      .MISSING_API_KEY, none⟩, st, [])
  else
    let apiKey := apiKeyOpt.getD ""
    let reusedConnection := options.reuseConnection != some false
    let acq := tsAcquire reusedConnection endpoint apiKey
      options.transportHeaders w st
    match acq with
    | (.error e, st1, tr1) => (.error e, st1, tr1)
    | (.ok _client, st1, tr1) =>
      let vres : Except BigModelMCPError Unit × List NetCall :=
        if options.validateToolAvailability = some true then
          match w.toolsReply with
          | none =>
            (.error ⟨"Failed to list tools on MCP server",
              .TRANSPORT_OR_CONNECT_ERROR, none⟩, [NetCall.listTools])
          | some names =>
            if names.contains TOOL_NAME then (.ok (), [NetCall.listTools])
            else
              (.error ⟨"Tool \"webSearchPrime\" not found on MCP endpoint " ++ endpoint,
                .INVALID_RESPONSE, none⟩, [NetCall.listTools])
        else (.ok (), [])
      match vres with
      | (.error e, tr2) => (.error e, st1, tr1 ++ tr2)
      | (.ok _, tr2) =>
        let callOutcome : Except BigModelMCPError Json :=
          match w.callReply with
          | none =>
            .error ⟨"MCP callTool(\"webSearchPrime\") failed",
              .TRANSPORT_OR_CONNECT_ERROR, none⟩
          | some j => .ok j
        let tr3 := tr1 ++ tr2 ++ [NetCall.callTool TOOL_NAME params]
        match withSoftTimeout callOutcome options.timeoutMs w.callDuration with
        | .error e => (.error e, st1, tr3)
        | .ok result =>
          if jsTruthyOpt (jget result "isError") then
            (.error ⟨"MCP tool \"webSearchPrime\" returned isError=true",
              .MCP_TOOL_ERROR, some result⟩, st1, tr3)
          else
            let rawBlocks : List Json :=
              match jget result "content" with
              | some (Json.arr xs) => xs
              | _ => []
            let items := normalizeItems (parseItemsFromBlocks rawBlocks)
            (.ok { items := items, rawBlocks := rawBlocks,
                   meta := { endpoint := endpoint, toolName := TOOL_NAME,
                             tookMs := w.endTime - w.startTime,
                             requestedCount := jget (Json.obj params) "count",
                             returnedCount := items.length,
                             reusedConnection := reusedConnection } },
             st1, tr3)

/- ===== JS entry point (`src/index.js`) ===== -/

/-- Error outcomes of the JS `webSearchPrime` (plain `Error` throws,
distinguished in the model by throwing site). -/
inductive JsError where
  | missingKey
  | connectFailed
  | callFailed
  | toolReturnedError (raw : Json)

/-- The options bag recognized by the JS entry. -/
structure JsOptions where
  apiKey : Option String := none
  endpoint : Option String := none
  reuseConnection : Option Bool := none

/-- External behaviour a single JS call can observe. `now` is the
`Date.now()` reading used for the ephemeral cache key. -/
structure JsWorld where
  envApiKey : Option String
  now : Int
  connectOk : Bool
  callReply : Option Json

/-- The value returned by the JS `webSearchPrime`
(`return { items, rawBlocks }`, `src/index.js:138`). -/
structure JsResult where
  items : List JsItem
  rawBlocks : List Json

/-- The keys of the object literal returned by the JS `webSearchPrime`
(`src/index.js:138`): `items` and `rawBlocks` only. -/
def jsResultKeys : List String := ["items", "rawBlocks"]

/-- `a || b` on possibly-undefined strings (the empty string is falsy). -/
def jsOrStr (a b : Option String) : Option String :=
  match a with
  | some s => if s.isEmpty then b else some s
  | none => b

/-- Own enumerable fields of a value, as object spread sees them
(spreading a primitive or `null` contributes nothing; the API never
passes arrays here). -/
def ownFields : Json → List (String × Json)
  | Json.obj fields => fields
  | _ => []

/-- `_toParams` from `src/index.js`: a bare query string yields the
literal `{ search_query, count: 10, content_size: 'medium',
location: 'cn' }`; any other input is spread over those three defaults
(caller keys override).  No `search_recency_filter` key is set. -/
def jsToParams (input : Json) : List (String × Json) :=
  match input with
  | Json.str q =>
    [("search_query", Json.str q), ("count", Json.num 10),
     ("content_size", Json.str (JStr.atom "medium")),
     ("location", Json.str (JStr.atom "cn"))]
  | _ =>
    objSpread
      [("count", Json.num 10),
       ("content_size", Json.str (JStr.atom "medium")),
       ("location", Json.str (JStr.atom "cn"))]
      (ownFields input)

/-- `webSearchPrime` from `src/index.js`, as a state-passing function
over the module-level `_clientCache`, with the trace of network
operations.  Note that with `reuseConnection: false` the fresh session
is still stored in the cache, under the key
`ephemeral::<Date.now()>`. -/
def webSearchPrime (queryOrParams : Json) (options : JsOptions)
    (w : JsWorld) (st : CacheState) :
    Except JsError JsResult × CacheState × List NetCall :=
  let endpoint := (jsOrStr options.endpoint (some DEFAULT_ENDPOINT)).getD
    DEFAULT_ENDPOINT
  match jsOrStr options.apiKey w.envApiKey with
  | none => (.error .missingKey, st, [])
  | some apiKey =>
    if apiKey.isEmpty then (.error .missingKey, st, [])
    else
      let params := jsToParams queryOrParams
      let cacheKey := if options.reuseConnection = some false then
          "ephemeral::" ++ toString w.now
        else endpoint ++ "::" ++ hashKey apiKey
      let proceed : CacheState → List NetCall →
          Except JsError JsResult × CacheState × List NetCall :=
        fun st2 tr =>
          let tr2 := tr ++ [NetCall.callTool TOOL_NAME params]
          match w.callReply with
          | none => (.error .callFailed, st2, tr2)
          | some result =>
            if jsTruthy result && jsTruthyOpt (jget result "isError") then
              (.error (.toolReturnedError result), st2, tr2)
            else
              let rawBlocks : List Json :=
                match jget result "content" with
                | some (Json.arr xs) => xs
                | _ => []
              let items := jsNormalizeItems (jsExtractArrayFromBlocks rawBlocks)
              (.ok ⟨items, rawBlocks⟩, st2, tr2)
      match st.entries.lookup cacheKey with
      | some _cid => proceed st []
      | none =>
        let st1 : CacheState := ⟨st.entries ++ [(cacheKey, st.nextId)],
          st.nextId + 1⟩
        let tr1 := [NetCall.connect endpoint
          [("Authorization", "Bearer " ++ apiKey)]]
        if w.connectOk then proceed st1 tr1
        else (.error .connectFailed, st1, tr1)

/- ===== Claim-side specification functions ===== -/

/-- Spec-side accessor combinator: the first present (non-nullish)
result of an ordered list of accessors wins. -/
def firstPresent : List (Option Json) → Option Json
  | [] => none
  | some Json.null :: rest => firstPresent rest
  | some w :: _ => some w
  | none :: rest => firstPresent rest

/-- Spec-side accessor combinator: the first truthy result of an
ordered list of accessors wins. -/
def firstTruthy : List (Option Json) → Option Json
  | [] => none
  | v :: rest => if jsTruthyOpt v then v else firstTruthy rest

/-- A URL candidate is usable only when it is a non-empty string. -/
def urlStringGuard : Option Json → Option JStr
  | some (Json.str s) => if JStr.isEmptyStr s then none else some s
  | _ => none

/-- Claim-side resolvable URL (TS normalizer): first-present-wins over
the alias chain `link`, `url`, `href`, `sourceUrl`, usable when it is
a non-empty string. -/
def claimUrl (r : Json) : Option JStr :=
  urlStringGuard
    (firstPresent [jget r "link", jget r "url", jget r "href",
      jget r "sourceUrl"])

/-- Claim-side resolvable URL (JS normalizer): first-truthy-wins over
the same alias chain, usable when it is a non-empty string. -/
def jsClaimUrl (r : Json) : Option JStr :=
  urlStringGuard
    (firstTruthy [jget r "link", jget r "url", jget r "href",
      jget r "sourceUrl"])

/-- Claim-side canonical title: first-present-wins over `title`,
`name`, `page_title`, falling back to the resolved URL. -/
def claimTitle (r : Json) (url : JStr) : Json :=
  (firstPresent [jget r "title", jget r "name", jget r "page_title"]).getD
    (Json.str url)

/-- Amended claim-side title for the JS normalizer: first-truthy-wins
over `title` and `name` only, falling back to the resolved URL. -/
def jsClaimTitle (r : Json) (url : JStr) : Json :=
  (firstTruthy [jget r "title", jget r "name"]).getD (Json.str url)

/-- Claim-side record selection (C1, TS): exactly the records with a
resolvable URL, deduplicated by exact URL match against the running
set, first occurrence kept, order preserved. -/
def keptRecords : List Json → List JStr → List Json
  | [], _ => []
  | r :: rs, seen =>
    match claimUrl r with
    | none => keptRecords rs seen
    | some u =>
      if seen.contains u then keptRecords rs seen
      else r :: keptRecords rs (u :: seen)

/-- Claim-side record selection (C1, JS normalizer). -/
def jsKeptRecords : List Json → List JStr → List Json
  | [], _ => []
  | r :: rs, seen =>
    match jsClaimUrl r with
    | none => jsKeptRecords rs seen
    | some u =>
      if seen.contains u then jsKeptRecords rs seen
      else r :: jsKeptRecords rs (u :: seen)

/-- `Array.isArray` on a possibly-undefined value. -/
def isArrayOpt : Option Json → Bool
  | some (Json.arr _) => true
  | _ => false

/-- The argument objects of the `callTool` operations in a trace. -/
def callToolArgs : List NetCall → List (List (String × Json))
  | [] => []
  | NetCall.callTool _ args :: tr => args :: callToolArgs tr
  | _ :: tr => callToolArgs tr

/-- The connect operations of a trace: each one is a session
establishment at the transport boundary. -/
def connectsOf : List NetCall → List NetCall
  | [] => []
  | NetCall.connect e hs :: tr => NetCall.connect e hs :: connectsOf tr
  | _ :: tr => connectsOf tr
mutual

theorem jsonBeq_iff : ∀ a b : Json, Json.beq a b = true ↔ a = b
  | Json.null, b => by cases b <;> simp [Json.beq]
  | Json.bool x, b => by cases b <;> simp [Json.beq]
  | Json.num x, b => by cases b <;> simp [Json.beq]
  | Json.str s, b => by
      cases b <;> simp [Json.beq, jstrBeq_iff s]
  | Json.arr xs, b => by
      cases b <;> simp [Json.beq, jsonBeqList_iff xs]
  | Json.obj fs, b => by
      cases b <;> simp [Json.beq, jsonBeqFields_iff fs]

theorem jsonBeqList_iff : ∀ a b : List Json, Json.beqList a b = true ↔ a = b
  | [], b => by cases b <;> simp [Json.beqList]
  | x :: xs, b => by
      cases b with
      | nil => simp [Json.beqList]
      | cons y ys =>
          simp [Json.beqList, jsonBeq_iff x y, jsonBeqList_iff xs ys]

theorem jsonBeqFields_iff :
    ∀ a b : List (String × Json), Json.beqFields a b = true ↔ a = b
  | [], b => by cases b <;> simp [Json.beqFields]
  | (k, v) :: xs, b => by
      cases b with
      | nil => simp [Json.beqFields]
      | cons y ys =>
          cases y with
          | mk l w =>
              simp [Json.beqFields, jsonBeq_iff v w, jsonBeqFields_iff xs ys,
                and_assoc]

theorem jstrBeq_iff : ∀ a b : JStr, JStr.beq a b = true ↔ a = b
  | JStr.atom s, b => by cases b <;> simp [JStr.beq]
  | JStr.enc v, b => by cases b <;> simp [JStr.beq, jsonBeq_iff v]

end

instance : DecidableEq Json := fun a b =>
  decidable_of_iff (Json.beq a b = true) (jsonBeq_iff a b)

instance : DecidableEq JStr := fun a b =>
  decidable_of_iff (JStr.beq a b = true) (jstrBeq_iff a b)

/-- Bridge: the `BEq` test on `JStr` decides equality. -/
theorem jstr_beq_eq (a b : JStr) : (a == b) = true ↔ a = b := jstrBeq_iff a b

/-- Bridge: `List.contains` on `JStr` lists decides membership. -/
theorem jstrContains_iff : ∀ (l : List JStr) (u : JStr),
    l.contains u = true ↔ u ∈ l
  | [], u => by simp [List.contains]
  | x :: xs, u => by
    have ih := jstrContains_iff xs u
    simp [List.contains] at ih ⊢
    rw [jstr_beq_eq]
    constructor <;> rintro (h | h) <;>
      first
      | exact Or.inl h
      | exact Or.inl h.symm
      | exact Or.inr (ih.mp h)
      | exact Or.inr (ih.mpr h)

/-- `firstPresent` peels one accessor exactly like `??`. -/
theorem firstPresent_cons (a : Option Json) (l : List (Option Json)) :
    firstPresent (a :: l) = jsCoalesce a (firstPresent l) := by
  cases a with
  | none => rfl
  | some v => cases v <;> rfl

/-- The URL string guard ignores which of two tails the `??` chain
reaches, as long as the guarded results agree. -/
theorem urlStringGuard_coalesce_congr (a : Option Json) {t t2 : Option Json}
    (h : urlStringGuard t = urlStringGuard t2) :
    urlStringGuard (jsCoalesce a t) = urlStringGuard (jsCoalesce a t2) := by
  cases a with
  | none => exact h
  | some v => cases v <;> simp [jsCoalesce, h]

/-- Guarded, the TS `sourceUrl` string test agrees with the plain
fourth accessor. -/
theorem urlStringGuard_sourceUrl (x : Option Json) :
    urlStringGuard
      (match x with
       | some (Json.str s) => some (Json.str s)
       | _ => none)
    = urlStringGuard (jsCoalesce x none) := by
  cases x with
  | none => rfl
  | some v => cases v <;> rfl

/-- The TS resolved URL coincides with the claim-side alias-chain URL. -/
theorem tsResolveUrl_eq_claimUrl (r : Json) : tsResolveUrl r = claimUrl r := by
  show urlStringGuard (tsRawUrl r) = claimUrl r
  unfold claimUrl tsRawUrl
  rw [firstPresent_cons, firstPresent_cons, firstPresent_cons,
    firstPresent_cons]
  show _ = urlStringGuard (jsCoalesce _ (jsCoalesce _ (jsCoalesce _ (jsCoalesce _ (firstPresent [])))))
  exact
    urlStringGuard_coalesce_congr _
      (urlStringGuard_coalesce_congr _
        (urlStringGuard_coalesce_congr _
          (urlStringGuard_sourceUrl (jget r "sourceUrl"))))

/-- `firstTruthy` peels one accessor exactly like `||`. -/
theorem firstTruthy_cons (a : Option Json) (l : List (Option Json)) :
    firstTruthy (a :: l) = jsOr a (firstTruthy l) := rfl

/-- The URL string guard ignores which of two tails the `||` chain
reaches, as long as the guarded results agree. -/
theorem urlStringGuard_or_congr (a : Option Json) {t t2 : Option Json}
    (h : urlStringGuard t = urlStringGuard t2) :
    urlStringGuard (jsOr a t) = urlStringGuard (jsOr a t2) := by
  unfold jsOr
  by_cases ht : jsTruthyOpt a = true
  · simp [ht]
  · simp [ht, h]

/-- A falsy final operand is rejected by the guard either way. -/
theorem urlStringGuard_lastOr (x : Option Json) :
    urlStringGuard x = urlStringGuard (jsOr x none) := by
  unfold jsOr
  by_cases ht : jsTruthyOpt x = true
  · simp [ht]
  · simp [ht]
    cases x with
    | none => rfl
    | some v =>
      cases v with
      | str s =>
        simp [jsTruthyOpt, jsTruthy] at ht
        simp [urlStringGuard, ht]
      | null => rfl
      | bool b => rfl
      | num n => rfl
      | arr xs => rfl
      | obj fs => rfl

/-- The JS resolved URL coincides with its claim-side alias-chain URL. -/
theorem jsResolveUrl_eq_jsClaimUrl (r : Json) : jsResolveUrl r = jsClaimUrl r := by
  show urlStringGuard (jsRawUrl r) = jsClaimUrl r
  unfold jsClaimUrl jsRawUrl
  rw [firstTruthy_cons, firstTruthy_cons, firstTruthy_cons, firstTruthy_cons]
  exact
    urlStringGuard_or_congr _
      (urlStringGuard_or_congr _
        (urlStringGuard_or_congr _
          (urlStringGuard_lastOr (jget r "sourceUrl"))))

/-- Records rejected by the `typeof` guard have no resolvable URL (TS). -/
theorem tsResolveUrl_of_not_objectLike {r : Json}
    (h : isObjectLike r = false) : tsResolveUrl r = none := by
  cases r <;> first | rfl | (simp [isObjectLike] at h)

/-- Records rejected by the `typeof` guard have no resolvable URL (JS). -/
theorem jsResolveUrl_of_not_objectLike {r : Json}
    (h : isObjectLike r = false) : jsResolveUrl r = none := by
  cases r <;> first | rfl | (simp [isObjectLike] at h)

/-- The TS normalalizer loop keeps exactly the claim-side records. -/
theorem normalizeItemsGo_map_raw : ∀ (rs : List Json) (seen : List JStr),
    (normalizeItemsGo rs seen).map WebSearchPrimeItem.raw = keptRecords rs seen
  | [], _ => rfl
  | r :: rs, seen => by
    have hcl : claimUrl r = tsResolveUrl r := (tsResolveUrl_eq_claimUrl r).symm
    simp only [normalizeItemsGo, keptRecords, hcl]
    by_cases hobj : isObjectLike r = false
    · rw [if_pos hobj, tsResolveUrl_of_not_objectLike hobj]
      exact normalizeItemsGo_map_raw rs seen
    · rw [if_neg hobj]
      cases hres : tsResolveUrl r with
      | none => exact normalizeItemsGo_map_raw rs seen
      | some u =>
        dsimp only
        by_cases hseen : seen.contains u = true
        · rw [if_pos hseen, if_pos hseen]
          exact normalizeItemsGo_map_raw rs seen
        · rw [if_neg hseen, if_neg hseen]
          simp only [List.map_cons, tsMkItem]
          rw [normalizeItemsGo_map_raw rs (u :: seen)]

/-- The TS normalizer never produces more items than records. -/
theorem normalizeItemsGo_length : ∀ (rs : List Json) (seen : List JStr),
    (normalizeItemsGo rs seen).length ≤ rs.length
  | [], _ => Nat.le_refl 0
  | r :: rs, seen => by
    simp only [normalizeItemsGo]
    by_cases hobj : isObjectLike r = false
    · rw [if_pos hobj]
      exact Nat.le_succ_of_le (normalizeItemsGo_length rs seen)
    · rw [if_neg hobj]
      cases tsResolveUrl r with
      | none => exact Nat.le_succ_of_le (normalizeItemsGo_length rs seen)
      | some u =>
        dsimp only
        by_cases hseen : seen.contains u = true
        · rw [if_pos hseen]
          exact Nat.le_succ_of_le (normalizeItemsGo_length rs seen)
        · rw [if_neg hseen]
          simpa using Nat.succ_le_succ (normalizeItemsGo_length rs (u :: seen))

/-- Output URLs of the TS normalizer loop avoid the running set and are
pairwise distinct. -/
theorem normalizeItemsGo_urls : ∀ (rs : List Json) (seen : List JStr),
    (∀ it ∈ normalizeItemsGo rs seen, it.url ∉ seen)
    ∧ ((normalizeItemsGo rs seen).map WebSearchPrimeItem.url).Nodup
  | [], _ => ⟨fun it h => absurd h (List.not_mem_nil it), List.nodup_nil⟩
  | r :: rs, seen => by
    simp only [normalizeItemsGo]
    by_cases hobj : isObjectLike r = false
    · rw [if_pos hobj]
      exact normalizeItemsGo_urls rs seen
    · rw [if_neg hobj]
      cases tsResolveUrl r with
      | none => exact normalizeItemsGo_urls rs seen
      | some u =>
        dsimp only
        by_cases hseen : seen.contains u = true
        · rw [if_pos hseen]
          exact normalizeItemsGo_urls rs seen
        · rw [if_neg hseen]
          have ih := normalizeItemsGo_urls rs (u :: seen)
          have hu : u ∉ seen := fun hm =>
            hseen ((jstrContains_iff seen u).mpr hm)
          constructor
          · intro it hit
            cases hit with
            | head => exact hu
            | tail _ htl =>
              have := ih.1 it htl
              intro hmem
              exact this (List.mem_cons_of_mem u hmem)
          · simp only [List.map_cons, List.nodup_cons]
            refine ⟨?_, ih.2⟩
            intro hmem
            rcases List.mem_map.mp hmem with ⟨it, hit, hurl⟩
            have := ih.1 it hit
            exact this (hurl ▸ List.mem_cons_self u seen)

/-- Every kept TS item records the URL its raw record resolves to. -/
theorem normalizeItemsGo_resolve : ∀ (rs : List Json) (seen : List JStr),
    ∀ it ∈ normalizeItemsGo rs seen, tsResolveUrl it.raw = some it.url
  | [], _ => by intro it h; cases h
  | r :: rs, seen => by
    simp only [normalizeItemsGo]
    by_cases hobj : isObjectLike r = false
    · rw [if_pos hobj]
      exact normalizeItemsGo_resolve rs seen
    · rw [if_neg hobj]
      cases hres : tsResolveUrl r with
      | none => exact normalizeItemsGo_resolve rs seen
      | some u =>
        dsimp only
        by_cases hseen : seen.contains u = true
        · rw [if_pos hseen]
          exact normalizeItemsGo_resolve rs seen
        · rw [if_neg hseen]
          intro it hit
          cases hit with
          | head => simpa [tsMkItem] using hres
          | tail _ htl => exact normalizeItemsGo_resolve rs (u :: seen) it htl

/-- The JS normalizer loop keeps exactly the claim-side records. -/
theorem jsNormalizeItemsGo_map_raw : ∀ (rs : List Json) (seen : List JStr),
    (jsNormalizeItemsGo rs seen).map JsItem.raw = jsKeptRecords rs seen
  | [], _ => rfl
  | r :: rs, seen => by
    have hcl : jsClaimUrl r = jsResolveUrl r := (jsResolveUrl_eq_jsClaimUrl r).symm
    simp only [jsNormalizeItemsGo, jsKeptRecords, hcl]
    by_cases hobj : isObjectLike r = false
    · rw [if_pos hobj, jsResolveUrl_of_not_objectLike hobj]
      exact jsNormalizeItemsGo_map_raw rs seen
    · rw [if_neg hobj]
      cases hres : jsResolveUrl r with
      | none => exact jsNormalizeItemsGo_map_raw rs seen
      | some u =>
        dsimp only
        by_cases hseen : seen.contains u = true
        · rw [if_pos hseen, if_pos hseen]
          exact jsNormalizeItemsGo_map_raw rs seen
        · rw [if_neg hseen, if_neg hseen]
          simp only [List.map_cons, jsMkItem]
          rw [jsNormalizeItemsGo_map_raw rs (u :: seen)]

/-- The JS normalizer never produces more items than records. -/
theorem jsNormalizeItemsGo_length : ∀ (rs : List Json) (seen : List JStr),
    (jsNormalizeItemsGo rs seen).length ≤ rs.length
  | [], _ => Nat.le_refl 0
  | r :: rs, seen => by
    simp only [jsNormalizeItemsGo]
    by_cases hobj : isObjectLike r = false
    · rw [if_pos hobj]
      exact Nat.le_succ_of_le (jsNormalizeItemsGo_length rs seen)
    · rw [if_neg hobj]
      cases jsResolveUrl r with
      | none => exact Nat.le_succ_of_le (jsNormalizeItemsGo_length rs seen)
      | some u =>
        dsimp only
        by_cases hseen : seen.contains u = true
        · rw [if_pos hseen]
          exact Nat.le_succ_of_le (jsNormalizeItemsGo_length rs seen)
        · rw [if_neg hseen]
          simpa using Nat.succ_le_succ (jsNormalizeItemsGo_length rs (u :: seen))

/-- Output URLs of the JS normalizer loop avoid the running set and
are pairwise distinct. -/
theorem jsNormalizeItemsGo_urls : ∀ (rs : List Json) (seen : List JStr),
    (∀ it ∈ jsNormalizeItemsGo rs seen, it.url ∉ seen)
    ∧ ((jsNormalizeItemsGo rs seen).map JsItem.url).Nodup
  | [], _ => ⟨fun it h => absurd h (List.not_mem_nil it), List.nodup_nil⟩
  | r :: rs, seen => by
    simp only [jsNormalizeItemsGo]
    by_cases hobj : isObjectLike r = false
    · rw [if_pos hobj]
      exact jsNormalizeItemsGo_urls rs seen
    · rw [if_neg hobj]
      cases jsResolveUrl r with
      | none => exact jsNormalizeItemsGo_urls rs seen
      | some u =>
        dsimp only
        by_cases hseen : seen.contains u = true
        · rw [if_pos hseen]
          exact jsNormalizeItemsGo_urls rs seen
        · rw [if_neg hseen]
          have ih := jsNormalizeItemsGo_urls rs (u :: seen)
          have hu : u ∉ seen := fun hm =>
            hseen ((jstrContains_iff seen u).mpr hm)
          constructor
          · intro it hit
            cases hit with
            | head => exact hu
            | tail _ htl =>
              have := ih.1 it htl
              intro hmem
              exact this (List.mem_cons_of_mem u hmem)
          · simp only [List.map_cons, List.nodup_cons]
            refine ⟨?_, ih.2⟩
            intro hmem
            rcases List.mem_map.mp hmem with ⟨it, hit, hurl⟩
            have := ih.1 it hit
            exact this (hurl ▸ List.mem_cons_self u seen)

/-- Every kept JS item records the URL its raw record resolves to. -/
theorem jsNormalizeItemsGo_resolve : ∀ (rs : List Json) (seen : List JStr),
    ∀ it ∈ jsNormalizeItemsGo rs seen, jsResolveUrl it.raw = some it.url
  | [], _ => by intro it h; cases h
  | r :: rs, seen => by
    simp only [jsNormalizeItemsGo]
    by_cases hobj : isObjectLike r = false
    · rw [if_pos hobj]
      exact jsNormalizeItemsGo_resolve rs seen
    · rw [if_neg hobj]
      cases hres : jsResolveUrl r with
      | none => exact jsNormalizeItemsGo_resolve rs seen
      | some u =>
        dsimp only
        by_cases hseen : seen.contains u = true
        · rw [if_pos hseen]
          exact jsNormalizeItemsGo_resolve rs seen
        · rw [if_neg hseen]
          intro it hit
          cases hit with
          | head => simpa [jsMkItem] using hres
          | tail _ htl => exact jsNormalizeItemsGo_resolve rs (u :: seen) it htl

/-- C1: for every block list, the normalization of the extracted
records returns exactly the extracted records with a resolvable URL
under the alias chain, deduplicated by exact URL with the first
occurrence kept across all blocks, order preserved, and the output
count is at most the extracted-record count — for the TS pipeline
(`normalizeItems` over `parseItemsFromBlocks`) and for the JS pipeline
(`_normalizeItems` over `_extractArrayFromBlocks`). -/
theorem claim_C1_normalize_extract_characterization (blocks : List Json) :
    ((normalizeItems (parseItemsFromBlocks blocks)).map WebSearchPrimeItem.raw
        = keptRecords (parseItemsFromBlocks blocks) [])
    ∧ ((normalizeItems (parseItemsFromBlocks blocks)).map
        WebSearchPrimeItem.url).Nodup
    ∧ (∀ it ∈ normalizeItems (parseItemsFromBlocks blocks),
        claimUrl it.raw = some it.url)
    ∧ (normalizeItems (parseItemsFromBlocks blocks)).length
        ≤ (parseItemsFromBlocks blocks).length
    ∧ ((jsNormalizeItems (jsExtractArrayFromBlocks blocks)).map JsItem.raw
        = jsKeptRecords (jsExtractArrayFromBlocks blocks) [])
    ∧ ((jsNormalizeItems (jsExtractArrayFromBlocks blocks)).map
        JsItem.url).Nodup
    ∧ (∀ it ∈ jsNormalizeItems (jsExtractArrayFromBlocks blocks),
        jsClaimUrl it.raw = some it.url)
    ∧ (jsNormalizeItems (jsExtractArrayFromBlocks blocks)).length
        ≤ (jsExtractArrayFromBlocks blocks).length := by
  refine ⟨normalizeItemsGo_map_raw _ [], (normalizeItemsGo_urls _ []).2,
    ?_, normalizeItemsGo_length _ [], jsNormalizeItemsGo_map_raw _ [],
    (jsNormalizeItemsGo_urls _ []).2, ?_, jsNormalizeItemsGo_length _ []⟩
  · intro it hit
    rw [← tsResolveUrl_eq_claimUrl]
    exact normalizeItemsGo_resolve _ [] it hit
  · intro it hit
    rw [← jsResolveUrl_eq_jsClaimUrl]
    exact jsNormalizeItemsGo_resolve _ [] it hit

/-- C7: a content block carrying a twice-stringified JSON array
unwraps to the same records as a once-stringified one, in both the TS
unwrapper (`parseItemsFromBlocks`) and the JS unwrapper
(`_extractArrayFromBlocks`); both yield exactly the array elements. -/
theorem claim_C7_double_encoding_roundtrip (a : List Json) :
    (parseItemsFromBlocks
        [Json.obj [("type", Json.str (JStr.atom "text")),
          ("text",
            Json.str (jsonStringify (Json.str (jsonStringify (Json.arr a)))))]]
      = parseItemsFromBlocks
        [Json.obj [("type", Json.str (JStr.atom "text")),
          ("text", Json.str (jsonStringify (Json.arr a)))]])
    ∧ (jsExtractArrayFromBlocks
        [Json.obj [("type", Json.str (JStr.atom "text")),
          ("text",
            Json.str (jsonStringify (Json.str (jsonStringify (Json.arr a)))))]]
      = jsExtractArrayFromBlocks
        [Json.obj [("type", Json.str (JStr.atom "text")),
          ("text", Json.str (jsonStringify (Json.arr a)))]])
    ∧ parseItemsFromBlocks
        [Json.obj [("type", Json.str (JStr.atom "text")),
          ("text", Json.str (jsonStringify (Json.arr a)))]] = a := by
  refine ⟨?_, ?_, ?_⟩ <;>
    simp [parseItemsFromBlocks, jsExtractArrayFromBlocks, blockRecords, jget,
      List.lookup, parsePossiblyNestedJson, parseRounds, jsonParse,
      jsonStringify, optJsonBeq, Json.beq, JStr.beq]

/-- C6 counterexample: the JS normalizer does not consult `page_title`;
a record whose only title-like field is `page_title` gets the URL as
its title, not the `page_title` value the claim requires. -/
theorem claim_C6_counterexample :
    jget (Json.obj [("page_title", Json.str (JStr.atom "P")),
        ("url", Json.str (JStr.atom "u"))]) "page_title"
      = some (Json.str (JStr.atom "P"))
    ∧ (jsNormalizeItems [Json.obj [("page_title", Json.str (JStr.atom "P")),
        ("url", Json.str (JStr.atom "u"))]]).map JsItem.title
      = [Json.str (JStr.atom "u")]
    ∧ Json.str (JStr.atom "u") ≠ Json.str (JStr.atom "P") := by
  refine ⟨rfl, rfl, ?_⟩
  simp

/-- `??`-chains ending in a sure default agree with the claim-side
first-present combinator under `getD`. -/
theorem coalesce_getD_swap (x : Option Json) (d : Json) :
    (jsCoalesce x (some d)).getD d = (jsCoalesce x none).getD d := by
  cases x with
  | none => rfl
  | some v => cases v <;> rfl

/-- Congruence for `getD` through one `??` layer. -/
theorem coalesce_getD_congr (t : Option Json) {r1 r2 : Option Json} (d : Json)
    (h : r1.getD d = r2.getD d) :
    (jsCoalesce t r1).getD d = (jsCoalesce t r2).getD d := by
  cases t with
  | none => exact h
  | some v => cases v <;> simp [jsCoalesce, h]

/-- The TS item title is the claim-side title. -/
theorem tsMkItem_title (r : Json) (url : JStr) :
    (tsMkItem r url).title = claimTitle r url := by
  show (jsCoalesce (jget r "title") (jsCoalesce (jget r "name")
    (jsCoalesce (jget r "page_title") (some (Json.str url))))).getD
      (Json.str url) = claimTitle r url
  unfold claimTitle
  rw [firstPresent_cons, firstPresent_cons, firstPresent_cons]
  exact
    coalesce_getD_congr _ _
      (coalesce_getD_congr _ _ (coalesce_getD_swap (jget r "page_title") _))

/-- `||`-chains ending in a sure default agree with the claim-side
first-truthy combinator under `getD`. -/
theorem or_getD_swap (x : Option Json) (d : Json) :
    (jsOr x (some d)).getD d = (jsOr x none).getD d := by
  unfold jsOr
  by_cases ht : jsTruthyOpt x = true <;> simp [ht]

/-- Congruence for `getD` through one `||` layer. -/
theorem or_getD_congr (t : Option Json) {r1 r2 : Option Json} (d : Json)
    (h : r1.getD d = r2.getD d) :
    (jsOr t r1).getD d = (jsOr t r2).getD d := by
  unfold jsOr
  by_cases ht : jsTruthyOpt t = true <;> simp [ht, h]

/-- The JS item title is the amended claim-side title. -/
theorem jsMkItem_title (r : Json) (url : JStr) :
    (jsMkItem r url).title = jsClaimTitle r url := by
  show (jsOr (jget r "title") (jsOr (jget r "name")
    (some (Json.str url)))).getD (Json.str url) = jsClaimTitle r url
  unfold jsClaimTitle
  rw [firstTruthy_cons, firstTruthy_cons]
  exact or_getD_congr _ _ (or_getD_swap (jget r "name") _)

/-- Title characterization along the TS normalizer loop. -/
theorem normalizeItemsGo_title : ∀ (rs : List Json) (seen : List JStr),
    ∀ it ∈ normalizeItemsGo rs seen, it.title = claimTitle it.raw it.url
  | [], _ => by intro it h; cases h
  | r :: rs, seen => by
    simp only [normalizeItemsGo]
    by_cases hobj : isObjectLike r = false
    · rw [if_pos hobj]
      exact normalizeItemsGo_title rs seen
    · rw [if_neg hobj]
      cases tsResolveUrl r with
      | none => exact normalizeItemsGo_title rs seen
      | some u =>
        dsimp only
        by_cases hseen : seen.contains u = true
        · rw [if_pos hseen]
          exact normalizeItemsGo_title rs seen
        · rw [if_neg hseen]
          intro it hit
          cases hit with
          | head => exact tsMkItem_title r u
          | tail _ htl => exact normalizeItemsGo_title rs (u :: seen) it htl

/-- Title characterization along the JS normalizer loop. -/
theorem jsNormalizeItemsGo_title : ∀ (rs : List Json) (seen : List JStr),
    ∀ it ∈ jsNormalizeItemsGo rs seen, it.title = jsClaimTitle it.raw it.url
  | [], _ => by intro it h; cases h
  | r :: rs, seen => by
    simp only [jsNormalizeItemsGo]
    by_cases hobj : isObjectLike r = false
    · rw [if_pos hobj]
      exact jsNormalizeItemsGo_title rs seen
    · rw [if_neg hobj]
      cases jsResolveUrl r with
      | none => exact jsNormalizeItemsGo_title rs seen
      | some u =>
        dsimp only
        by_cases hseen : seen.contains u = true
        · rw [if_pos hseen]
          exact jsNormalizeItemsGo_title rs seen
        · rw [if_neg hseen]
          intro it hit
          cases hit with
          | head => exact jsMkItem_title r u
          | tail _ htl => exact jsNormalizeItemsGo_title rs (u :: seen) it htl

/-- C6 amended: in the TS normalizer every kept item's title is
first-present-wins over `title`, `name`, `page_title` with the
resolved URL as fallback; in the JS normalizer only `title` and `name`
are consulted (by truthiness) before falling back to the URL, so
`page_title` is ignored there. -/
theorem claim_C6_amended_title_resolution (recs : List Json) :
    (∀ it ∈ normalizeItems recs, it.title = claimTitle it.raw it.url)
    ∧ (∀ it ∈ jsNormalizeItems recs, it.title = jsClaimTitle it.raw it.url) :=
  ⟨normalizeItemsGo_title recs [], jsNormalizeItemsGo_title recs []⟩

/-- Association-list lookup hits a matching head. -/
theorem lookup_cons_self {α : Type} (a : String) (b : α)
    (es : List (String × α)) : List.lookup a ((a, b) :: es) = some b := by
  simp [List.lookup]

/-- Association-list lookup skips a non-matching head. -/
theorem lookup_cons_ne {α : Type} (k a : String) (b : α)
    (es : List (String × α)) (h : k ≠ a) :
    List.lookup k ((a, b) :: es) = List.lookup k es := by
  simp [List.lookup, show (k == a) = false from beq_eq_false_iff_ne.mpr h]

/-- Key-list membership via `contains`, for string keys. -/
theorem strContains_iff (l : List String) (k : String) :
    l.contains k = true ↔ k ∈ l := by
  simp [List.contains]

/-- The key-replacement map stores the assigned key when present. -/
theorem lookup_map_replace {α : Type} :
    ∀ (o : List (String × α)) (k : String) (v : α), k ∈ o.map Prod.fst →
    (o.map (fun kv => if kv.1 = k then (k, v) else kv)).lookup k = some v
  | [], k, v, h => by cases h
  | (k1, v1) :: o, k, v, h => by
    rw [List.map_cons]
    by_cases hk : k1 = k
    · rw [show (if (k1, v1).1 = k then (k, v) else (k1, v1)) = (k, v) by
        rw [if_pos hk]]
      exact lookup_cons_self k v _
    · rw [show (if (k1, v1).1 = k then (k, v) else (k1, v1)) = (k1, v1) by
        rw [if_neg hk]]
      rw [lookup_cons_ne k k1 v1 _ (fun he => hk he.symm)]
      have hm : k ∈ o.map Prod.fst := by
        rcases List.mem_map.mp h with ⟨kv, hkv, hfst⟩
        cases List.mem_cons.mp hkv with
        | inl h0 =>
            rw [h0] at hfst
            exact absurd hfst (fun he => hk he)
        | inr h0 => exact List.mem_map.mpr ⟨kv, h0, hfst⟩
      exact lookup_map_replace o k v hm

/-- The key-replacement map leaves other keys alone. -/
theorem lookup_map_replace_ne {α : Type} :
    ∀ (o : List (String × α)) (k k2 : String) (v : α), k2 ≠ k →
    (o.map (fun kv => if kv.1 = k then (k, v) else kv)).lookup k2
      = o.lookup k2
  | [], _, _, _, _ => rfl
  | (k1, v1) :: o, k, k2, v, hne => by
    rw [List.map_cons]
    by_cases hk : k1 = k
    · rw [show (if (k1, v1).1 = k then (k, v) else (k1, v1)) = (k, v) by
        rw [if_pos hk]]
      rw [lookup_cons_ne k2 k v _ hne,
        lookup_cons_ne k2 k1 v1 _ (hk ▸ hne),
        lookup_map_replace_ne o k k2 v hne]
    · rw [show (if (k1, v1).1 = k then (k, v) else (k1, v1)) = (k1, v1) by
        rw [if_neg hk]]
      by_cases h2 : k2 = k1
      · subst h2
        rw [lookup_cons_self, lookup_cons_self]
      · rw [lookup_cons_ne k2 k1 v1 _ h2, lookup_cons_ne k2 k1 v1 _ h2,
          lookup_map_replace_ne o k k2 v hne]

/-- Lookup of an absent key is `none`. -/
theorem lookup_eq_none_of_not_mem {α : Type} :
    ∀ (o : List (String × α)) (k : String), k ∉ o.map Prod.fst →
    o.lookup k = none
  | [], _, _ => rfl
  | (k1, v1) :: o, k, h => by
    have h1 : k ≠ k1 := fun he => h (by simp [he])
    rw [lookup_cons_ne k k1 v1 _ h1]
    exact lookup_eq_none_of_not_mem o k (fun hm => h (by simp [hm]))

/-- Lookup through an appended tail when the head misses. -/
theorem lookup_append_right {α : Type} :
    ∀ (o : List (String × α)) (k : String) (tl : List (String × α)),
    k ∉ o.map Prod.fst → (o ++ tl).lookup k = tl.lookup k
  | [], _, _, _ => rfl
  | (k1, v1) :: o, k, tl, h => by
    have h1 : k ≠ k1 := fun he => h (by simp [he])
    rw [List.cons_append, lookup_cons_ne k k1 v1 _ h1]
    exact lookup_append_right o k tl (fun hm => h (by simp [hm]))

/-- `objSet` stores the assigned key. -/
theorem lookup_objSet_self {α : Type} (o : List (String × α)) (k : String)
    (v : α) : (objSet o k v).lookup k = some v := by
  unfold objSet
  by_cases h : (o.map Prod.fst).contains k = true
  · rw [if_pos h]
    exact lookup_map_replace o k v ((strContains_iff _ k).mp h)
  · rw [if_neg h]
    have hm : k ∉ o.map Prod.fst := fun hmem =>
      h ((strContains_iff _ k).mpr hmem)
    rw [lookup_append_right o k _ hm]
    exact lookup_cons_self k v []

/-- Appending one fresh pair leaves other keys unchanged. -/
theorem lookup_append_single_ne {α : Type} :
    ∀ (o : List (String × α)) (k k2 : String) (v : α), k2 ≠ k →
    (o ++ [(k, v)]).lookup k2 = o.lookup k2
  | [], k, k2, v, hne => by
    rw [List.nil_append]
    rw [lookup_cons_ne k2 k v [] hne]
  | (k1, v1) :: o, k, k2, v, hne => by
    by_cases h2 : k2 = k1
    · subst h2
      rw [List.cons_append, lookup_cons_self, lookup_cons_self]
    · rw [List.cons_append, lookup_cons_ne k2 k1 v1 _ h2,
        lookup_cons_ne k2 k1 v1 _ h2]
      exact lookup_append_single_ne o k k2 v hne

/-- `objSet` leaves other keys unchanged. -/
theorem lookup_objSet_other {α : Type} (o : List (String × α))
    (k k2 : String) (v : α) (hne : k2 ≠ k) :
    (objSet o k v).lookup k2 = o.lookup k2 := by
  unfold objSet
  by_cases h : (o.map Prod.fst).contains k = true
  · rw [if_pos h]
    exact lookup_map_replace_ne o k k2 v hne
  · rw [if_neg h]
    exact lookup_append_single_ne o k k2 v hne

/-- Spreading fields whose keys avoid `k` leaves the accumulated
binding of `k` unchanged. -/
theorem lookup_objSpread_absent {α : Type} :
    ∀ (extra acc : List (String × α)) (k : String), k ∉ extra.map Prod.fst →
    (objSpread acc extra).lookup k = acc.lookup k
  | [], _, _, _ => rfl
  | (k1, v1) :: extra, acc, k, h => by
    show (objSpread (objSet acc k1 v1) extra).lookup k = acc.lookup k
    rw [lookup_objSpread_absent extra _ k (fun hm => h (by simp [hm]))]
    exact lookup_objSet_other acc k1 k v1 (fun he => h (by simp [he]))

/-- A spread field with a unique key ends up bound to its value. -/
theorem lookup_objSpread_present {α : Type} :
    ∀ (extra acc : List (String × α)) (k : String) (v : α),
    (extra.map Prod.fst).Nodup → extra.lookup k = some v →
    (objSpread acc extra).lookup k = some v
  | [], _, _, _, _, hl => by cases hl
  | (k1, v1) :: extra, acc, k, v, hnd, hl => by
    by_cases hk : k = k1
    · subst hk
      rw [lookup_cons_self] at hl
      injection hl with hv
      subst hv
      show (objSpread (objSet acc k v1) extra).lookup k = some v1
      have hnotin : k ∉ extra.map Prod.fst := by
        simp only [List.map_cons, List.nodup_cons] at hnd
        exact hnd.1
      rw [lookup_objSpread_absent extra _ k hnotin]
      exact lookup_objSet_self acc k v1
    · rw [lookup_cons_ne k k1 v1 _ hk] at hl
      show (objSpread (objSet acc k1 v1) extra).lookup k = some v
      refine lookup_objSpread_present extra _ k v ?_ hl
      simp only [List.map_cons, List.nodup_cons] at hnd
      exact hnd.2

/-- Every connect issued by the TS acquisition step goes to the chosen
endpoint with exactly the merged headers. -/
theorem tsAcquire_connect (reused : Bool) (endpoint apiKey : String)
    (headers : Option (List (String × String))) (w : TsWorld)
    (st : CacheState) (e : String) (hs : List (String × String))
    (hmem : NetCall.connect e hs ∈ (tsAcquire reused endpoint apiKey headers w st).2.2) :
    e = endpoint ∧ hs = mergedHeaders apiKey headers := by
  unfold tsAcquire getOrCreateClient createEphemeralClient at hmem
  dsimp only at hmem
  by_cases hr : reused
  · rw [if_pos hr] at hmem
    cases hlk : st.entries.lookup (endpoint ++ "::" ++ hashKey apiKey) with
    | some cid =>
      rw [hlk] at hmem
      cases hmem
    | none =>
      rw [hlk] at hmem
      by_cases hc : w.connectOk = true
      · rw [if_pos hc] at hmem
        simp only [List.mem_singleton, NetCall.connect.injEq] at hmem
        exact ⟨hmem.1, hmem.2⟩
      · rw [if_neg hc] at hmem
        simp only [List.mem_singleton, NetCall.connect.injEq] at hmem
        exact ⟨hmem.1, hmem.2⟩
  · rw [if_neg hr] at hmem
    by_cases hc : w.connectOk = true
    · rw [if_pos hc] at hmem
      simp only [List.mem_singleton, NetCall.connect.injEq] at hmem
      exact ⟨hmem.1, hmem.2⟩
    · rw [if_neg hc] at hmem
      simp only [List.mem_singleton, NetCall.connect.injEq] at hmem
      exact ⟨hmem.1, hmem.2⟩

/-- C3 counterexample: the TS header merge spreads caller headers after
the Authorization entry, so a caller-supplied `Authorization` value
overrides the bearer credential in the headers actually sent on
connect. -/
theorem claim_C3_counterexample :
    (bigmodelWebSearchPrime [("search_query", Json.str (JStr.atom "q"))]
        { apiKey := some "k",
          transportHeaders := some [("Authorization", "X")] }
        { envApiKey := none, connectOk := true, toolsReply := none,
          callReply := some (Json.obj [("content", Json.arr [])]),
          callDuration := 0, startTime := 0, endTime := 0 }
        ⟨[], 0⟩).2.2
      = [NetCall.connect DEFAULT_ENDPOINT [("Authorization", "X")],
         NetCall.callTool "webSearchPrime"
           [("search_query", Json.str (JStr.atom "q"))]]
    ∧ ("X" : String) ≠ "Bearer " ++ "k" := by
  exact ⟨rfl, by decide⟩

/-- C3 amended: the merged transport headers bind Authorization to
`Bearer <credential>` whenever the caller supplies no Authorization
key (and always when no caller headers are given); caller-supplied
headers merge in and are honoured, which means a caller-supplied
Authorization key overrides the default; and every connect issued by
the TS acquisition step carries exactly these merged headers. -/
theorem claim_C3_amended_header_merge (apiKey : String)
    (headers : List (String × String))
    (hnd : (headers.map Prod.fst).Nodup) :
    ("Authorization" ∉ headers.map Prod.fst →
      (mergedHeaders apiKey (some headers)).lookup "Authorization"
        = some ("Bearer " ++ apiKey))
    ∧ (∀ k v, headers.lookup k = some v →
        (mergedHeaders apiKey (some headers)).lookup k = some v)
    ∧ (mergedHeaders apiKey none).lookup "Authorization"
        = some ("Bearer " ++ apiKey)
    ∧ (∀ reused endpoint w st e hs,
        NetCall.connect e hs ∈
          (tsAcquire reused endpoint apiKey (some headers) w st).2.2 →
        e = endpoint ∧ hs = mergedHeaders apiKey (some headers)) := by
  refine ⟨?_, ?_, rfl, ?_⟩
  · intro habs
    show (objSpread [("Authorization", "Bearer " ++ apiKey)] headers).lookup
      "Authorization" = some ("Bearer " ++ apiKey)
    rw [lookup_objSpread_absent headers _ "Authorization" habs]
    exact lookup_cons_self _ _ []
  · intro k v hl
    exact lookup_objSpread_present headers _ k v hnd hl
  · intro reused endpoint w st e hs hmem
    exact tsAcquire_connect reused endpoint apiKey (some headers) w st e hs hmem

/-- C3 witness: the amended merge behaviour at a concrete credential
and a concrete caller header list. -/
theorem claim_C3_amended_header_merge_witness :
    (([("X-Custom", "1")].map (Prod.fst (α := String) (β := String))).Nodup)
    ∧ (("Authorization" ∉ [("X-Custom", "1")].map
          (Prod.fst (α := String) (β := String)) →
        (mergedHeaders "k" (some [("X-Custom", "1")])).lookup "Authorization"
          = some ("Bearer " ++ "k"))
      ∧ (∀ k v, [("X-Custom", "1")].lookup k = some v →
          (mergedHeaders "k" (some [("X-Custom", "1")])).lookup k = some v)
      ∧ (mergedHeaders "k" none).lookup "Authorization"
          = some ("Bearer " ++ "k")
      ∧ (∀ reused endpoint w st e hs,
          NetCall.connect e hs ∈
            (tsAcquire reused endpoint "k" (some [("X-Custom", "1")]) w st).2.2 →
          e = endpoint ∧ hs = mergedHeaders "k" (some [("X-Custom", "1")]))) :=
  ⟨by decide, claim_C3_amended_header_merge "k" [("X-Custom", "1")] (by decide)⟩

/-- The ephemeral acquisition path never touches the cache mapping and
always issues exactly one fresh connect. -/
theorem createEphemeralClient_state (endpoint apiKey : String)
    (headers : Option (List (String × String))) (w : TsWorld)
    (st : CacheState) :
    (createEphemeralClient endpoint apiKey headers w st).2.1.entries
      = st.entries
    ∧ (createEphemeralClient endpoint apiKey headers w st).2.2
      = [NetCall.connect endpoint (mergedHeaders apiKey headers)] := by
  unfold createEphemeralClient
  by_cases hc : w.connectOk = true
  · rw [if_pos hc]
    exact ⟨rfl, rfl⟩
  · rw [if_neg hc]
    exact ⟨rfl, rfl⟩

/-- Dissection of a TS call that passes the credential gate: its final
cache state is the acquisition's cache state, and its trace is the
acquisition's trace followed by non-connect operations only. -/
theorem tsRun_decompose (params : List (String × Json))
    (options : BigModelMCPOptions) (w : TsWorld) (st : CacheState)
    (hb : blankKey (tsResolveApiKey options w.envApiKey) = false) :
    ∃ rest : List NetCall,
      (bigmodelWebSearchPrime params options w st).2.1
        = (tsAcquire (options.reuseConnection != some false)
            (options.endpoint.getD DEFAULT_ENDPOINT)
            ((tsResolveApiKey options w.envApiKey).getD "")
            options.transportHeaders w st).2.1
      ∧ (bigmodelWebSearchPrime params options w st).2.2
        = (tsAcquire (options.reuseConnection != some false)
            (options.endpoint.getD DEFAULT_ENDPOINT)
            ((tsResolveApiKey options w.envApiKey).getD "")
            options.transportHeaders w st).2.2 ++ rest
      ∧ ∀ e hs, NetCall.connect e hs ∉ rest := by
  unfold bigmodelWebSearchPrime
  dsimp only
  rw [if_neg (by simp [hb])]
  rcases hacq : tsAcquire (options.reuseConnection != some false)
      (options.endpoint.getD DEFAULT_ENDPOINT)
      ((tsResolveApiKey options w.envApiKey).getD "")
      options.transportHeaders w st with ⟨res, st1, tr1⟩
  cases res with
  | error e =>
    exact ⟨[], rfl, by simp, by intro e hs h; cases h⟩
  | ok cid =>
    dsimp only
    by_cases hv : options.validateToolAvailability = some true
    · rw [if_pos hv]
      cases w.toolsReply with
      | none =>
        dsimp only
        refine ⟨[NetCall.listTools], rfl, by simp, ?_⟩
        intro e hs h
        simp at h
      | some names =>
        dsimp only
        by_cases hex : names.contains TOOL_NAME = true
        · rw [if_pos hex]
          dsimp only
          cases withSoftTimeout
              (match w.callReply with
               | none =>
                 .error ⟨"MCP callTool(\"webSearchPrime\") failed",
                   .TRANSPORT_OR_CONNECT_ERROR, none⟩
               | some j => .ok j) options.timeoutMs w.callDuration with
          | error e =>
            dsimp only
            refine ⟨[NetCall.listTools, NetCall.callTool TOOL_NAME params],
              rfl, by simp, ?_⟩
            intro e2 hs h
            simp at h
          | ok result =>
            dsimp only
            by_cases herr : jsTruthyOpt (jget result "isError") = true
            · rw [if_pos herr]
              refine ⟨[NetCall.listTools, NetCall.callTool TOOL_NAME params],
                rfl, by simp, ?_⟩
              intro e2 hs h
              simp at h
            · rw [if_neg herr]
              refine ⟨[NetCall.listTools, NetCall.callTool TOOL_NAME params],
                rfl, by simp, ?_⟩
              intro e2 hs h
              simp at h
        · rw [if_neg hex]
          refine ⟨[NetCall.listTools], rfl, by simp, ?_⟩
          intro e hs h
          simp at h
    · rw [if_neg hv]
      dsimp only
      cases withSoftTimeout
          (match w.callReply with
           | none =>
             .error ⟨"MCP callTool(\"webSearchPrime\") failed",
               .TRANSPORT_OR_CONNECT_ERROR, none⟩
           | some j => .ok j) options.timeoutMs w.callDuration with
      | error e =>
        dsimp only
        refine ⟨[NetCall.callTool TOOL_NAME params], rfl, by simp, ?_⟩
        intro e2 hs h
        simp at h
      | ok result =>
        dsimp only
        by_cases herr : jsTruthyOpt (jget result "isError") = true
        · rw [if_pos herr]
          refine ⟨[NetCall.callTool TOOL_NAME params], rfl, by simp, ?_⟩
          intro e2 hs h
          simp at h
        · rw [if_neg herr]
          refine ⟨[NetCall.callTool TOOL_NAME params], rfl, by simp, ?_⟩
          intro e2 hs h
          simp at h

/-- C2 counterexample: in the JS entry a `reuseConnection: false` call
stores its fresh session in the connection cache under the key
`ephemeral::<Date.now()>` (the mapping changes), and a second such
call in the same millisecond finds that entry and performs no fresh
session establishment at all (its trace has no connect). -/
theorem claim_C2_counterexample :
    (webSearchPrime (Json.str (JStr.atom "q"))
        { apiKey := some "k", reuseConnection := some false }
        { envApiKey := none, now := 5, connectOk := true,
          callReply := some (Json.obj [("content", Json.arr [])]) }
        ⟨[], 0⟩).2.1
      = ⟨[("ephemeral::5", 0)], 1⟩
    ∧ (webSearchPrime (Json.str (JStr.atom "q"))
        { apiKey := some "k", reuseConnection := some false }
        { envApiKey := none, now := 5, connectOk := true,
          callReply := some (Json.obj [("content", Json.arr [])]) }
        ⟨[("ephemeral::5", 0)], 1⟩).2.2
      = [NetCall.callTool "webSearchPrime"
          (jsToParams (Json.str (JStr.atom "q")))] :=
  ⟨rfl, rfl⟩

/-- Traces concatenate their connect events. -/
theorem connectsOf_append : ∀ (a b : List NetCall),
    connectsOf (a ++ b) = connectsOf a ++ connectsOf b
  | [], _ => rfl
  | c :: a, b => by
    cases c with
    | connect e hs => simp [connectsOf, connectsOf_append a b]
    | listTools =>
      show connectsOf (a ++ b) = connectsOf a ++ connectsOf b
      exact connectsOf_append a b
    | callTool n args =>
      show connectsOf (a ++ b) = connectsOf a ++ connectsOf b
      exact connectsOf_append a b

/-- A trace without connect events has no connects. -/
theorem connectsOf_nil_of_no_connect : ∀ (l : List NetCall),
    (∀ e hs, NetCall.connect e hs ∉ l) → connectsOf l = []
  | [], _ => rfl
  | c :: l, h => by
    cases c with
    | connect e hs => exact absurd (List.mem_cons_self _ _) (h e hs)
    | listTools =>
      show connectsOf l = []
      exact connectsOf_nil_of_no_connect l
        (fun e hs hm => h e hs (List.mem_cons_of_mem _ hm))
    | callTool n args =>
      show connectsOf l = []
      exact connectsOf_nil_of_no_connect l
        (fun e hs hm => h e hs (List.mem_cons_of_mem _ hm))

/-- C2 amended: in the TS entry `reuseConnection: false` bypasses the
cache — the cache mapping is unchanged by the call and the call
performs exactly one session establishment of its own (its trace
starts with that fresh connect and contains no other connect).  The JS
entry instead stores the fresh session under the timestamp-based key
`ephemeral::<Date.now()>`: on a cache miss its mapping grows by
exactly that entry, and when a previous same-millisecond call already
left that entry the repeat call performs no session establishment at
all. -/
theorem claim_C2_amended_ephemeral_bypass (params : List (String × Json))
    (options : BigModelMCPOptions) (w : TsWorld) (st : CacheState)
    (hb : blankKey (tsResolveApiKey options w.envApiKey) = false)
    (hr : options.reuseConnection = some false) :
    (bigmodelWebSearchPrime params options w st).2.1.entries = st.entries
    ∧ (bigmodelWebSearchPrime params options w st).2.2.head?
      = some (NetCall.connect (options.endpoint.getD DEFAULT_ENDPOINT)
          (mergedHeaders ((tsResolveApiKey options w.envApiKey).getD "")
            options.transportHeaders))
    ∧ connectsOf (bigmodelWebSearchPrime params options w st).2.2
      = [NetCall.connect (options.endpoint.getD DEFAULT_ENDPOINT)
          (mergedHeaders ((tsResolveApiKey options w.envApiKey).getD "")
            options.transportHeaders)]
    ∧ (∀ (input : Json) (joptions : JsOptions) (jw : JsWorld)
        (jst : CacheState) (k : String),
        joptions.reuseConnection = some false →
        jsOrStr joptions.apiKey jw.envApiKey = some k →
        k.isEmpty = false →
        (jst.entries.lookup ("ephemeral::" ++ toString jw.now) = none →
          (webSearchPrime input joptions jw jst).2.1.entries
            = jst.entries ++ [("ephemeral::" ++ toString jw.now, jst.nextId)])
        ∧ (∀ cid,
            jst.entries.lookup ("ephemeral::" ++ toString jw.now) = some cid →
            connectsOf (webSearchPrime input joptions jw jst).2.2 = [])) := by
  obtain ⟨rest, hst, htr, hnoc⟩ := tsRun_decompose params options w st hb
  have hreq : (options.reuseConnection != some false) = false := by
    simp [hr]
  have hace : tsAcquire (options.reuseConnection != some false)
      (options.endpoint.getD DEFAULT_ENDPOINT)
      ((tsResolveApiKey options w.envApiKey).getD "")
      options.transportHeaders w st
      = createEphemeralClient (options.endpoint.getD DEFAULT_ENDPOINT)
        ((tsResolveApiKey options w.envApiKey).getD "")
        options.transportHeaders w st := by
    unfold tsAcquire
    rw [hreq]
    rw [if_neg (by simp)]
  obtain ⟨h1, h2⟩ := createEphemeralClient_state
    (options.endpoint.getD DEFAULT_ENDPOINT)
    ((tsResolveApiKey options w.envApiKey).getD "")
    options.transportHeaders w st
  refine ⟨?_, ?_, ?_, ?_⟩
  · rw [hst, hace]
    exact h1
  · rw [htr, hace, h2]
    rfl
  · rw [htr, hace, h2, connectsOf_append, connectsOf_nil_of_no_connect rest hnoc]
    rfl
  · intro input joptions jw jst k hjr hjk hjke
    constructor
    · intro hmiss
      unfold webSearchPrime
      dsimp only
      rw [hjk]
      dsimp only
      rw [if_neg (by simp [hjke])]
      rw [if_pos hjr, hmiss]
      dsimp only
      by_cases hc : jw.connectOk = true
      · rw [if_pos hc]
        rcases hcr : jw.callReply with _ | result
        · rfl
        · dsimp only
          by_cases herr :
              (jsTruthy result && jsTruthyOpt (jget result "isError")) = true
          · rw [if_pos herr]
          · rw [if_neg herr]
      · rw [if_neg hc]
    · intro cid hhit
      unfold webSearchPrime
      dsimp only
      rw [hjk]
      dsimp only
      rw [if_neg (by simp [hjke])]
      rw [if_pos hjr, hhit]
      dsimp only
      rcases hcr : jw.callReply with _ | result
      · rfl
      · dsimp only
        by_cases herr :
            (jsTruthy result && jsTruthyOpt (jget result "isError")) = true
        · rw [if_pos herr]
          rfl
        · rw [if_neg herr]
          rfl

/-- C2 witness: the amended bypass behaviour at a concrete call. -/
theorem claim_C2_amended_ephemeral_bypass_witness :
    blankKey (tsResolveApiKey
        { apiKey := some "k", reuseConnection := some false } none) = false
    ∧ ((bigmodelWebSearchPrime [("search_query", Json.str (JStr.atom "q"))]
        { apiKey := some "k", reuseConnection := some false }
        { envApiKey := none, connectOk := true, toolsReply := none,
          callReply := some (Json.obj [("content", Json.arr [])]),
          callDuration := 0, startTime := 0, endTime := 0 }
        ⟨[], 0⟩).2.1.entries = ([] : List (String × Nat))
      ∧ (bigmodelWebSearchPrime [("search_query", Json.str (JStr.atom "q"))]
        { apiKey := some "k", reuseConnection := some false }
        { envApiKey := none, connectOk := true, toolsReply := none,
          callReply := some (Json.obj [("content", Json.arr [])]),
          callDuration := 0, startTime := 0, endTime := 0 }
        ⟨[], 0⟩).2.2.head?
        = some (NetCall.connect
            (Option.getD (BigModelMCPOptions.endpoint
              { apiKey := some "k", reuseConnection := some false })
              DEFAULT_ENDPOINT)
            (mergedHeaders (Option.getD (tsResolveApiKey
                { apiKey := some "k", reuseConnection := some false } none) "")
              (BigModelMCPOptions.transportHeaders
                { apiKey := some "k", reuseConnection := some false })))
      ∧ connectsOf (bigmodelWebSearchPrime
            [("search_query", Json.str (JStr.atom "q"))]
            { apiKey := some "k", reuseConnection := some false }
            { envApiKey := none, connectOk := true, toolsReply := none,
              callReply := some (Json.obj [("content", Json.arr [])]),
              callDuration := 0, startTime := 0, endTime := 0 }
            ⟨[], 0⟩).2.2
        = [NetCall.connect
            (Option.getD (BigModelMCPOptions.endpoint
              { apiKey := some "k", reuseConnection := some false })
              DEFAULT_ENDPOINT)
            (mergedHeaders (Option.getD (tsResolveApiKey
                { apiKey := some "k", reuseConnection := some false } none) "")
              (BigModelMCPOptions.transportHeaders
                { apiKey := some "k", reuseConnection := some false }))]
      ∧ (∀ (input : Json) (joptions : JsOptions) (jw : JsWorld)
          (jst : CacheState) (k : String),
          joptions.reuseConnection = some false →
          jsOrStr joptions.apiKey jw.envApiKey = some k →
          k.isEmpty = false →
          (jst.entries.lookup ("ephemeral::" ++ toString jw.now) = none →
            (webSearchPrime input joptions jw jst).2.1.entries
              = jst.entries
                ++ [("ephemeral::" ++ toString jw.now, jst.nextId)])
          ∧ (∀ cid,
              jst.entries.lookup ("ephemeral::" ++ toString jw.now)
                = some cid →
              connectsOf (webSearchPrime input joptions jw jst).2.2 = []))) :=
  ⟨rfl, claim_C2_amended_ephemeral_bypass _ _ _ _ rfl rfl⟩

/-- C4 counterexample: a whitespace-only credential is blank, yet the
JS entry's gate (`if (!apiKey)`) lets it through: the call proceeds to
the network (two transport operations) and succeeds instead of
failing with the missing-credential error. -/
theorem claim_C4_counterexample :
    jsTrim " " = ""
    ∧ (webSearchPrime (Json.str (JStr.atom "q")) { apiKey := some " " }
        { envApiKey := none, now := 0, connectOk := true,
          callReply := some (Json.obj [("content", Json.arr [])]) }
        ⟨[], 0⟩).1
      = .ok ⟨[], []⟩
    ∧ (webSearchPrime (Json.str (JStr.atom "q")) { apiKey := some " " }
        { envApiKey := none, now := 0, connectOk := true,
          callReply := some (Json.obj [("content", Json.arr [])]) }
        ⟨[], 0⟩).2.2.length = 2 :=
  ⟨rfl, rfl, rfl⟩

/-- C4 amended: the TS entry fails with `MISSING_API_KEY` before any
network operation whenever the resolved credential is absent, empty,
or whitespace-only; the JS entry fails before any network operation
only when the resolved credential is absent or the empty string (a
whitespace-only credential passes its gate). -/
theorem claim_C4_amended_credential_gate (params : List (String × Json))
    (options : BigModelMCPOptions) (w : TsWorld) (st : CacheState)
    (input : Json) (joptions : JsOptions) (jw : JsWorld) (jst : CacheState)
    (hts : blankKey (tsResolveApiKey options w.envApiKey) = true)
    (hjs : jsOrStr joptions.apiKey jw.envApiKey = none
        ∨ jsOrStr joptions.apiKey jw.envApiKey = some "") :
    bigmodelWebSearchPrime params options w st
      = (.error ⟨"Missing BigModel API key: pass options.apiKey or set BIGMODEL_API_KEY",
          .MISSING_API_KEY, none⟩, st, [])
    ∧ webSearchPrime input joptions jw jst
      = (.error .missingKey, jst, []) := by
  constructor
  · unfold bigmodelWebSearchPrime
    dsimp only
    rw [if_pos (by simp [hts])]
  · unfold webSearchPrime
    dsimp only
    rcases hjs with h | h
    · rw [h]
    · rw [h]
      rfl

/-- C4 witness: the amended gate at concrete blank credentials. -/
theorem claim_C4_amended_credential_gate_witness :
    blankKey (tsResolveApiKey { apiKey := some "   " } none) = true
    ∧ (jsOrStr (JsOptions.apiKey { }) none = none
        ∨ jsOrStr (JsOptions.apiKey { }) none = some "")
    ∧ (bigmodelWebSearchPrime [("search_query", Json.str (JStr.atom "q"))]
          { apiKey := some "   " }
          { envApiKey := none, connectOk := true, toolsReply := none,
            callReply := none, callDuration := 0, startTime := 0,
            endTime := 0 }
          ⟨[], 0⟩
        = (.error ⟨"Missing BigModel API key: pass options.apiKey or set BIGMODEL_API_KEY",
            .MISSING_API_KEY, none⟩, ⟨[], 0⟩, [])
      ∧ webSearchPrime (Json.str (JStr.atom "q")) { }
          { envApiKey := none, now := 0, connectOk := true,
            callReply := none }
          ⟨[], 0⟩
        = (.error .missingKey, ⟨[], 0⟩, [])) :=
  ⟨rfl, Or.inl rfl,
    claim_C4_amended_credential_gate _ _ _ _ _ _ _ _ rfl (Or.inl rfl)⟩

/-- C5 counterexample: the JS entry's successful return value is the
object literal with keys `items` and `rawBlocks` only — it carries no
`meta` record at all, contradicting the claimed shape for that search
call. -/
theorem claim_C5_counterexample :
    ("meta" ∉ jsResultKeys)
    ∧ (webSearchPrime (Json.str (JStr.atom "q")) { apiKey := some "k" }
        { envApiKey := none, now := 0, connectOk := true,
          callReply := some (Json.obj [("content", Json.arr [])]) }
        ⟨[], 0⟩).1
      = .ok ⟨[], []⟩ :=
  ⟨by decide, rfl⟩

/-- C5 amended: every successful TS search call returns
`{ items, rawBlocks, meta }` where `meta` records the endpoint used,
the tool name invoked, the elapsed milliseconds between the two clock
readings, the requested count (`params.count`), the returned count
(equal to the number of items), and whether the session was reused;
the JS entry returns `{ items, rawBlocks }` without `meta`. -/
theorem claim_C5_amended_meta (params : List (String × Json))
    (options : BigModelMCPOptions) (w : TsWorld) (st : CacheState)
    (out : WebSearchPrimeOutput) (st2 : CacheState) (tr : List NetCall)
    (h : bigmodelWebSearchPrime params options w st = (.ok out, st2, tr)) :
    out.meta.endpoint = options.endpoint.getD DEFAULT_ENDPOINT
    ∧ out.meta.toolName = "webSearchPrime"
    ∧ out.meta.tookMs = w.endTime - w.startTime
    ∧ out.meta.requestedCount = jget (Json.obj params) "count"
    ∧ out.meta.returnedCount = out.items.length
    ∧ out.meta.reusedConnection = (options.reuseConnection != some false) := by
  unfold bigmodelWebSearchPrime at h
  dsimp only at h
  by_cases hb : blankKey (tsResolveApiKey options w.envApiKey) = true
  · rw [if_pos (by simp [hb])] at h
    simp at h
  · rw [if_neg (by simpa using hb)] at h
    rcases hacq : tsAcquire (options.reuseConnection != some false)
        (options.endpoint.getD DEFAULT_ENDPOINT)
        ((tsResolveApiKey options w.envApiKey).getD "")
        options.transportHeaders w st with ⟨res, st1, tr1⟩
    rw [hacq] at h
    cases res with
    | error e => simp at h
    | ok cid =>
      dsimp only at h
      by_cases hv : options.validateToolAvailability = some true
      · rw [if_pos hv] at h
        rcases htools : w.toolsReply with _ | names
        · rw [htools] at h
          simp at h
        · rw [htools] at h
          dsimp only at h
          by_cases hex : names.contains TOOL_NAME = true
          · rw [if_pos hex] at h
            rcases hsw : withSoftTimeout
                (match w.callReply with
                 | none =>
                   .error ⟨"MCP callTool(\"webSearchPrime\") failed",
                     .TRANSPORT_OR_CONNECT_ERROR, none⟩
                 | some j => .ok j) options.timeoutMs w.callDuration
              with e | result
            · rw [hsw] at h
              simp at h
            · rw [hsw] at h
              dsimp only at h
              by_cases herr : jsTruthyOpt (jget result "isError") = true
              · rw [if_pos herr] at h
                simp at h
              · rw [if_neg herr] at h
                simp only [Prod.mk.injEq, Except.ok.injEq] at h
                obtain ⟨ho, -, -⟩ := h
                subst ho
                exact ⟨rfl, rfl, rfl, rfl, rfl, rfl⟩
          · rw [if_neg hex] at h
            simp at h
      · rw [if_neg hv] at h
        rcases hsw : withSoftTimeout
            (match w.callReply with
             | none =>
               .error ⟨"MCP callTool(\"webSearchPrime\") failed",
                 .TRANSPORT_OR_CONNECT_ERROR, none⟩
             | some j => .ok j) options.timeoutMs w.callDuration
          with e | result
        · rw [hsw] at h
          simp at h
        · rw [hsw] at h
          dsimp only at h
          by_cases herr : jsTruthyOpt (jget result "isError") = true
          · rw [if_pos herr] at h
            simp at h
          · rw [if_neg herr] at h
            simp only [Prod.mk.injEq, Except.ok.injEq] at h
            obtain ⟨ho, -, -⟩ := h
            subst ho
            exact ⟨rfl, rfl, rfl, rfl, rfl, rfl⟩

/-- C5 witness: the meta record of a concrete successful TS call. -/
theorem claim_C5_amended_meta_witness :
    (WebSearchPrimeMeta.endpoint
        { endpoint := DEFAULT_ENDPOINT, toolName := "webSearchPrime",
          tookMs := 40, requestedCount := some (Json.num 5),
          returnedCount := 0, reusedConnection := true }
      = Option.getD (BigModelMCPOptions.endpoint { apiKey := some "k" })
          DEFAULT_ENDPOINT)
    ∧ WebSearchPrimeMeta.toolName
        { endpoint := DEFAULT_ENDPOINT, toolName := "webSearchPrime",
          tookMs := 40, requestedCount := some (Json.num 5),
          returnedCount := 0, reusedConnection := true }
      = "webSearchPrime"
    ∧ WebSearchPrimeMeta.tookMs
        { endpoint := DEFAULT_ENDPOINT, toolName := "webSearchPrime",
          tookMs := 40, requestedCount := some (Json.num 5),
          returnedCount := 0, reusedConnection := true }
      = (140 : Int) - 100
    ∧ WebSearchPrimeMeta.requestedCount
        { endpoint := DEFAULT_ENDPOINT, toolName := "webSearchPrime",
          tookMs := 40, requestedCount := some (Json.num 5),
          returnedCount := 0, reusedConnection := true }
      = jget (Json.obj [("search_query", Json.str (JStr.atom "q")),
          ("count", Json.num 5)]) "count"
    ∧ WebSearchPrimeMeta.returnedCount
        { endpoint := DEFAULT_ENDPOINT, toolName := "webSearchPrime",
          tookMs := 40, requestedCount := some (Json.num 5),
          returnedCount := 0, reusedConnection := true }
      = List.length ([] : List WebSearchPrimeItem)
    ∧ WebSearchPrimeMeta.reusedConnection
        { endpoint := DEFAULT_ENDPOINT, toolName := "webSearchPrime",
          tookMs := 40, requestedCount := some (Json.num 5),
          returnedCount := 0, reusedConnection := true }
      = (BigModelMCPOptions.reuseConnection { apiKey := some "k" }
          != some false) := by
  have h := claim_C5_amended_meta
    [("search_query", Json.str (JStr.atom "q")), ("count", Json.num 5)]
    { apiKey := some "k" }
    { envApiKey := none, connectOk := true, toolsReply := none,
      callReply := some (Json.obj [("content", Json.arr [])]),
      callDuration := 3, startTime := 100, endTime := 140 }
    ⟨[], 0⟩
    { items := [], rawBlocks := [],
      meta := { endpoint := DEFAULT_ENDPOINT, toolName := "webSearchPrime",
                tookMs := 40, requestedCount := some (Json.num 5),
                returnedCount := 0, reusedConnection := true } }
    ⟨[(DEFAULT_ENDPOINT ++ "::" ++ hashKey "k", 0)], 1⟩
    [NetCall.connect DEFAULT_ENDPOINT (mergedHeaders "k" none),
     NetCall.callTool "webSearchPrime"
       [("search_query", Json.str (JStr.atom "q")), ("count", Json.num 5)]]
    rfl
  exact h

/-- The soft timeout fires whenever the deadline is positive and the
underlying call does not settle strictly before it. -/
theorem withSoftTimeout_fires (outcome : Except BigModelMCPError Json)
    (t dur : Int) (h0 : 0 < t) (hd : t ≤ dur) :
    withSoftTimeout outcome (some t) dur
      = .error ⟨"MCP call soft-timeout after " ++ toString t ++ "ms",
          .TRANSPORT_OR_CONNECT_ERROR, none⟩ := by
  unfold withSoftTimeout
  dsimp only
  rw [if_neg (by omega), if_neg (by omega)]

/-- When connecting succeeds, the acquisition step yields a session. -/
theorem tsAcquire_ok (reused : Bool) (endpoint apiKey : String)
    (headers : Option (List (String × String))) (w : TsWorld)
    (st : CacheState) (hc : w.connectOk = true) :
    ∃ cid st1 tr1,
      tsAcquire reused endpoint apiKey headers w st = (.ok cid, st1, tr1) := by
  unfold tsAcquire getOrCreateClient createEphemeralClient
  cases reused with
  | true =>
    rw [if_pos rfl]
    dsimp only
    cases hlk : st.entries.lookup (endpoint ++ "::" ++ hashKey apiKey) with
    | some cid => exact ⟨cid, st, [], rfl⟩
    | none =>
      refine ⟨st.nextId,
        ⟨st.entries ++ [(endpoint ++ "::" ++ hashKey apiKey, st.nextId)],
          st.nextId + 1⟩,
        [NetCall.connect endpoint (mergedHeaders apiKey headers)], ?_⟩
      dsimp only
      rw [if_pos hc]
  | false =>
    rw [if_neg (by simp)]
    exact ⟨st.nextId, ⟨st.entries, st.nextId + 1⟩,
      [NetCall.connect endpoint (mergedHeaders apiKey headers)],
      by rw [if_pos hc]⟩

/-- C9 counterexample: a call whose local wait exceeds the deadline
rejects with a `BigModelMCPError` whose `code` is
`TRANSPORT_OR_CONNECT_ERROR` — exactly the code carried by a remote
invocation failure, so the soft-timeout rejection is not a distinct
error kind. -/
theorem claim_C9_counterexample :
    (bigmodelWebSearchPrime [("search_query", Json.str (JStr.atom "q"))]
        { apiKey := some "k", timeoutMs := some 5 }
        { envApiKey := none, connectOk := true, toolsReply := none,
          callReply := some (Json.obj [("content", Json.arr [])]),
          callDuration := 10, startTime := 0, endTime := 20 }
        ⟨[], 0⟩).1
      = .error ⟨"MCP call soft-timeout after 5ms",
          .TRANSPORT_OR_CONNECT_ERROR, none⟩
    ∧ (bigmodelWebSearchPrime [("search_query", Json.str (JStr.atom "q"))]
        { apiKey := some "k" }
        { envApiKey := none, connectOk := true, toolsReply := none,
          callReply := none, callDuration := 0, startTime := 0,
          endTime := 0 }
        ⟨[], 0⟩).1
      = .error ⟨"MCP callTool(\"webSearchPrime\") failed",
          .TRANSPORT_OR_CONNECT_ERROR, none⟩
    ∧ BigModelMCPError.code ⟨"MCP call soft-timeout after 5ms",
          .TRANSPORT_OR_CONNECT_ERROR, none⟩
      = BigModelMCPError.code ⟨"MCP callTool(\"webSearchPrime\") failed",
          .TRANSPORT_OR_CONNECT_ERROR, none⟩ :=
  ⟨rfl, rfl, rfl⟩

/-- C9 amended: when a positive `timeoutMs` elapses before the
invocation settles, the TS call rejects with a `BigModelMCPError`
whose message is the soft-timeout message but whose `code` is
`TRANSPORT_OR_CONNECT_ERROR`, the same code as remote invocation
failures — only the message distinguishes the two. -/
theorem claim_C9_amended_soft_timeout (params : List (String × Json))
    (options : BigModelMCPOptions) (w : TsWorld) (st : CacheState) (t : Int)
    (hb : blankKey (tsResolveApiKey options w.envApiKey) = false)
    (hc : w.connectOk = true)
    (hv : ¬ options.validateToolAvailability = some true)
    (hto : options.timeoutMs = some t) (h0 : 0 < t)
    (hd : t ≤ w.callDuration) :
    (bigmodelWebSearchPrime params options w st).1
      = .error ⟨"MCP call soft-timeout after " ++ toString t ++ "ms",
          .TRANSPORT_OR_CONNECT_ERROR, none⟩
    ∧ BigModelMCPError.code ⟨"MCP call soft-timeout after " ++ toString t ++ "ms",
          .TRANSPORT_OR_CONNECT_ERROR, none⟩
      = BigModelMCPError.code ⟨"MCP callTool(\"webSearchPrime\") failed",
          .TRANSPORT_OR_CONNECT_ERROR, none⟩ := by
  refine ⟨?_, rfl⟩
  unfold bigmodelWebSearchPrime
  dsimp only
  rw [if_neg (by simp [hb])]
  obtain ⟨cid, st1, tr1, hacq⟩ := tsAcquire_ok
    (options.reuseConnection != some false)
    (options.endpoint.getD DEFAULT_ENDPOINT)
    ((tsResolveApiKey options w.envApiKey).getD "")
    options.transportHeaders w st hc
  rw [hacq]
  dsimp only
  rw [if_neg hv]
  dsimp only
  rw [hto, withSoftTimeout_fires _ t _ h0 hd]

/-- C9 witness: the amended soft-timeout outcome at a concrete call. -/
theorem claim_C9_amended_soft_timeout_witness :
    blankKey (tsResolveApiKey { apiKey := some "k", timeoutMs := some 5 }
        none) = false
    ∧ ((bigmodelWebSearchPrime [("search_query", Json.str (JStr.atom "q"))]
          { apiKey := some "k", timeoutMs := some 5 }
          { envApiKey := none, connectOk := true, toolsReply := none,
            callReply := some (Json.obj [("content", Json.arr [])]),
            callDuration := 10, startTime := 0, endTime := 20 }
          ⟨[], 0⟩).1
        = .error ⟨"MCP call soft-timeout after " ++ toString (5 : Int) ++ "ms",
            .TRANSPORT_OR_CONNECT_ERROR, none⟩
      ∧ BigModelMCPError.code
          ⟨"MCP call soft-timeout after " ++ toString (5 : Int) ++ "ms",
            .TRANSPORT_OR_CONNECT_ERROR, none⟩
        = BigModelMCPError.code ⟨"MCP callTool(\"webSearchPrime\") failed",
            .TRANSPORT_OR_CONNECT_ERROR, none⟩) :=
  ⟨rfl, claim_C9_amended_soft_timeout
    [("search_query", Json.str (JStr.atom "q"))]
    { apiKey := some "k", timeoutMs := some 5 }
    { envApiKey := none, connectOk := true, toolsReply := none,
      callReply := some (Json.obj [("content", Json.arr [])]),
      callDuration := 10, startTime := 0, endTime := 20 }
    ⟨[], 0⟩ 5 rfl rfl (by decide) rfl (by decide) (by decide)⟩

/-- Without a deadline the soft timeout is a no-op. -/
theorem withSoftTimeout_none (outcome : Except BigModelMCPError Json)
    (dur : Int) : withSoftTimeout outcome none dur = outcome := rfl

/-- A non-array (or absent) `content` field contributes no blocks. -/
theorem contentBlocks_nil (x : Option Json) (hx : isArrayOpt x = false) :
    (match x with
     | some (Json.arr xs) => xs
     | _ => ([] : List Json)) = [] := by
  rcases x with _ | v
  · rfl
  · cases v <;> first | rfl | (simp [isArrayOpt] at hx)

/-- C10: a remote response that does not signal an application error
and whose `content` field is absent or not an array makes the search
call succeed with empty `rawBlocks` and empty `items`, in both the TS
entry and the JS entry. -/
theorem claim_C10_non_array_content_tolerated
    (params : List (String × Json)) (options : BigModelMCPOptions)
    (w : TsWorld) (st : CacheState) (j : Json)
    (input : Json) (joptions : JsOptions) (jw : JsWorld) (jst : CacheState)
    (j2 : Json) (k : String)
    (hb : blankKey (tsResolveApiKey options w.envApiKey) = false)
    (hc : w.connectOk = true)
    (hv : ¬ options.validateToolAvailability = some true)
    (hto : options.timeoutMs = none)
    (hreply : w.callReply = some j)
    (herr : jsTruthyOpt (jget j "isError") = false)
    (hcon : isArrayOpt (jget j "content") = false)
    (hkey : jsOrStr joptions.apiKey jw.envApiKey = some k)
    (hke : k.isEmpty = false)
    (hc2 : jw.connectOk = true)
    (hreply2 : jw.callReply = some j2)
    (herr2 : (jsTruthy j2 && jsTruthyOpt (jget j2 "isError")) = false)
    (hcon2 : isArrayOpt (jget j2 "content") = false) :
    (∃ out st2 tr,
      bigmodelWebSearchPrime params options w st = (.ok out, st2, tr)
      ∧ out.items = [] ∧ out.rawBlocks = [])
    ∧ (∃ res st2 tr,
      webSearchPrime input joptions jw jst = (.ok res, st2, tr)
      ∧ res.items = [] ∧ res.rawBlocks = []) := by
  constructor
  · unfold bigmodelWebSearchPrime
    dsimp only
    rw [if_neg (by simp [hb])]
    obtain ⟨cid, st1, tr1, hacq⟩ := tsAcquire_ok
      (options.reuseConnection != some false)
      (options.endpoint.getD DEFAULT_ENDPOINT)
      ((tsResolveApiKey options w.envApiKey).getD "")
      options.transportHeaders w st hc
    rw [hacq]
    dsimp only
    rw [if_neg hv]
    dsimp only
    rw [hto, hreply, withSoftTimeout_none]
    dsimp only
    rw [if_neg (by simp [herr])]
    refine ⟨_, _, _, rfl, ?_, ?_⟩
    · show normalizeItems (parseItemsFromBlocks
        (match jget j "content" with
         | some (Json.arr xs) => xs
         | _ => [])) = []
      rw [contentBlocks_nil _ hcon]
      rfl
    · show (match jget j "content" with
        | some (Json.arr xs) => xs
        | _ => ([] : List Json)) = []
      exact contentBlocks_nil _ hcon
  · unfold webSearchPrime
    dsimp only
    rw [hkey]
    dsimp only
    rw [if_neg (by simp [hke])]
    rcases hlk : jst.entries.lookup
        (if joptions.reuseConnection = some false then
          "ephemeral::" ++ toString jw.now
         else
          ((jsOrStr joptions.endpoint (some DEFAULT_ENDPOINT)).getD
            DEFAULT_ENDPOINT) ++ "::" ++ hashKey k)
      with _ | cid
    · rw [if_pos hc2]
      dsimp only
      rw [hreply2]
      dsimp only
      rw [if_neg (by simp [herr2])]
      refine ⟨_, _, _, rfl, ?_, ?_⟩
      · show jsNormalizeItems (jsExtractArrayFromBlocks
          (match jget j2 "content" with
           | some (Json.arr xs) => xs
           | _ => [])) = []
        rw [contentBlocks_nil _ hcon2]
        rfl
      · show (match jget j2 "content" with
          | some (Json.arr xs) => xs
          | _ => ([] : List Json)) = []
        exact contentBlocks_nil _ hcon2
    · dsimp only
      rw [hreply2]
      dsimp only
      rw [if_neg (by simp [herr2])]
      refine ⟨_, _, _, rfl, ?_, ?_⟩
      · show jsNormalizeItems (jsExtractArrayFromBlocks
          (match jget j2 "content" with
           | some (Json.arr xs) => xs
           | _ => [])) = []
        rw [contentBlocks_nil _ hcon2]
        rfl
      · show (match jget j2 "content" with
          | some (Json.arr xs) => xs
          | _ => ([] : List Json)) = []
        exact contentBlocks_nil _ hcon2

/-- C10 witness: tolerated non-array content at a concrete call (the
remote reply is an object with no `content` field at all). -/
theorem claim_C10_non_array_content_tolerated_witness :
    blankKey (tsResolveApiKey { apiKey := some "k" } none) = false
    ∧ isArrayOpt (jget (Json.obj [("note", Json.str (JStr.atom "hi"))])
        "content") = false
    ∧ ((∃ out st2 tr,
        bigmodelWebSearchPrime [("search_query", Json.str (JStr.atom "q"))]
            { apiKey := some "k" }
            { envApiKey := none, connectOk := true, toolsReply := none,
              callReply := some (Json.obj [("note", Json.str (JStr.atom "hi"))]),
              callDuration := 0, startTime := 0, endTime := 0 }
            ⟨[], 0⟩
          = (.ok out, st2, tr)
        ∧ out.items = [] ∧ out.rawBlocks = [])
      ∧ (∃ res st2 tr,
        webSearchPrime (Json.str (JStr.atom "q")) { apiKey := some "k" }
            { envApiKey := none, now := 0, connectOk := true,
              callReply := some (Json.obj [("note", Json.str (JStr.atom "hi"))]) }
            ⟨[], 0⟩
          = (.ok res, st2, tr)
        ∧ res.items = [] ∧ res.rawBlocks = [])) :=
  ⟨rfl, rfl,
    claim_C10_non_array_content_tolerated
      [("search_query", Json.str (JStr.atom "q"))] { apiKey := some "k" }
      { envApiKey := none, connectOk := true, toolsReply := none,
        callReply := some (Json.obj [("note", Json.str (JStr.atom "hi"))]),
        callDuration := 0, startTime := 0, endTime := 0 }
      ⟨[], 0⟩ (Json.obj [("note", Json.str (JStr.atom "hi"))])
      (Json.str (JStr.atom "q")) { apiKey := some "k" }
      { envApiKey := none, now := 0, connectOk := true,
        callReply := some (Json.obj [("note", Json.str (JStr.atom "hi"))]) }
      ⟨[], 0⟩ (Json.obj [("note", Json.str (JStr.atom "hi"))]) "k"
      rfl rfl (by simp) rfl rfl rfl rfl rfl rfl rfl rfl rfl rfl⟩

/-- A key present in the key list resolves to some value. -/
theorem exists_lookup_of_mem_keys {α : Type} :
    ∀ (o : List (String × α)) (k : String), k ∈ o.map Prod.fst →
    ∃ v, o.lookup k = some v
  | [], k, h => absurd h (List.not_mem_nil k)
  | (k1, v1) :: o, k, h => by
    by_cases hk : k = k1
    · subst hk
      exact ⟨v1, lookup_cons_self k v1 o⟩
    · rw [lookup_cons_ne k k1 v1 o hk]
      apply exists_lookup_of_mem_keys o k
      simp only [List.map_cons, List.mem_cons] at h
      rcases h with h | h
      · exact absurd h hk
      · exact h

/-- C8 counterexample: for a bare query string the arguments actually
sent to the remote procedure carry the `count`, `content_size` and
`location` defaults but no `search_recency_filter` key at all — the
`noLimit` default is never applied locally. -/
theorem claim_C8_counterexample :
    callToolArgs (webSearchPrime (Json.str (JStr.atom "q"))
        { apiKey := some "k" }
        { envApiKey := none, now := 0, connectOk := true,
          callReply := some (Json.obj [("content", Json.arr [])]) }
        ⟨[], 0⟩).2.2
      = [jsToParams (Json.str (JStr.atom "q"))]
    ∧ jget (Json.obj (jsToParams (Json.str (JStr.atom "q"))))
        "search_recency_filter" = none
    ∧ jget (Json.obj (jsToParams (Json.str (JStr.atom "q")))) "count"
      = some (Json.num 10) :=
  ⟨rfl, rfl, rfl⟩

/-- C8 amended: the convenience entry applies the defaults `count` 10,
`content_size` medium and `location` cn at the orchestration boundary
— for a bare query string literally, for object input by spreading the
caller's fields over those defaults (caller values win) — while
`search_recency_filter` receives no local default (it stays absent
unless supplied); every remote invocation the entry performs passes
exactly `_toParams` of the caller's input. -/
theorem claim_C8_amended_defaults (q : JStr)
    (kvs : List (String × Json))
    (hnd : (kvs.map Prod.fst).Nodup) :
    jsToParams (Json.str q)
      = [("search_query", Json.str q), ("count", Json.num 10),
         ("content_size", Json.str (JStr.atom "medium")),
         ("location", Json.str (JStr.atom "cn"))]
    ∧ jget (Json.obj (jsToParams (Json.obj kvs))) "count"
      = some ((jget (Json.obj kvs) "count").getD (Json.num 10))
    ∧ jget (Json.obj (jsToParams (Json.obj kvs))) "content_size"
      = some ((jget (Json.obj kvs) "content_size").getD
          (Json.str (JStr.atom "medium")))
    ∧ jget (Json.obj (jsToParams (Json.obj kvs))) "location"
      = some ((jget (Json.obj kvs) "location").getD
          (Json.str (JStr.atom "cn")))
    ∧ (∀ k v, (kvs : List (String × Json)).lookup k = some v →
        jget (Json.obj (jsToParams (Json.obj kvs))) k = some v)
    ∧ (jget (Json.obj kvs) "search_recency_filter" = none →
        jget (Json.obj (jsToParams (Json.obj kvs)))
          "search_recency_filter" = none)
    ∧ (∀ input options w st n args,
        NetCall.callTool n args ∈ (webSearchPrime input options w st).2.2 →
        n = TOOL_NAME ∧ args = jsToParams input) := by
  have hdef : ∀ (k : String) (d : Json),
      (("count", Json.num 10) ::
        ("content_size", Json.str (JStr.atom "medium")) ::
        ("location", Json.str (JStr.atom "cn")) :: []).lookup k = some d →
      jget (Json.obj (jsToParams (Json.obj kvs))) k
        = some ((jget (Json.obj kvs) k).getD d) := by
    intro k d hd
    show (objSpread [("count", Json.num 10),
      ("content_size", Json.str (JStr.atom "medium")),
      ("location", Json.str (JStr.atom "cn"))] kvs).lookup k
      = some (((kvs : List (String × Json)).lookup k).getD d)
    cases hlkv : (kvs : List (String × Json)).lookup k with
    | some v =>
      rw [lookup_objSpread_present kvs _ k v hnd hlkv]
      rfl
    | none =>
      have hnm : k ∉ kvs.map Prod.fst := by
        intro hm
        obtain ⟨v, hv⟩ := exists_lookup_of_mem_keys kvs k hm
        rw [hv] at hlkv
        cases hlkv
      rw [lookup_objSpread_absent kvs _ k hnm, hd]
      rfl
  refine ⟨rfl, hdef "count" (Json.num 10) rfl,
    hdef "content_size" (Json.str (JStr.atom "medium")) (by rfl),
    hdef "location" (Json.str (JStr.atom "cn")) (by rfl),
    ?_, ?_, ?_⟩
  · intro k v hl
    exact lookup_objSpread_present kvs _ k v hnd hl
  · intro hrec
    have hnm : "search_recency_filter" ∉ kvs.map Prod.fst := by
      intro hm
      obtain ⟨v, hv⟩ := exists_lookup_of_mem_keys kvs _ hm
      rw [show jget (Json.obj kvs) "search_recency_filter"
        = (kvs : List (String × Json)).lookup "search_recency_filter"
        from rfl, hv] at hrec
      cases hrec
    show (objSpread [("count", Json.num 10),
      ("content_size", Json.str (JStr.atom "medium")),
      ("location", Json.str (JStr.atom "cn"))] kvs).lookup
      "search_recency_filter" = none
    rw [lookup_objSpread_absent kvs _ _ hnm]
    rfl
  · intro input options w st n args hmem
    unfold webSearchPrime at hmem
    dsimp only at hmem
    rcases hkey : jsOrStr options.apiKey w.envApiKey with _ | k2
    · rw [hkey] at hmem
      cases hmem
    · rw [hkey] at hmem
      dsimp only at hmem
      by_cases hke : k2.isEmpty = true
      · rw [if_pos hke] at hmem
        cases hmem
      · rw [if_neg hke] at hmem
        rcases hlk : st.entries.lookup
            (if options.reuseConnection = some false then
              "ephemeral::" ++ toString w.now
             else
              ((jsOrStr options.endpoint (some DEFAULT_ENDPOINT)).getD
                DEFAULT_ENDPOINT) ++ "::" ++ hashKey k2)
          with _ | cid
        · rw [hlk] at hmem
          dsimp only at hmem
          by_cases hc : w.connectOk = true
          · rw [if_pos hc] at hmem
            rcases hr : w.callReply with _ | result
            · rw [hr] at hmem
              dsimp only at hmem
              simp at hmem
              exact ⟨hmem.1, hmem.2⟩
            · rw [hr] at hmem
              dsimp only at hmem
              by_cases herr :
                  (jsTruthy result && jsTruthyOpt (jget result "isError"))
                    = true
              · rw [if_pos herr] at hmem
                simp at hmem
                exact ⟨hmem.1, hmem.2⟩
              · rw [if_neg herr] at hmem
                simp at hmem
                exact ⟨hmem.1, hmem.2⟩
          · rw [if_neg hc] at hmem
            simp at hmem
        · rw [hlk] at hmem
          dsimp only at hmem
          rcases hr : w.callReply with _ | result
          · rw [hr] at hmem
            dsimp only at hmem
            simp at hmem
            exact ⟨hmem.1, hmem.2⟩
          · rw [hr] at hmem
            dsimp only at hmem
            by_cases herr :
                (jsTruthy result && jsTruthyOpt (jget result "isError"))
                  = true
            · rw [if_pos herr] at hmem
              simp at hmem
              exact ⟨hmem.1, hmem.2⟩
            · rw [if_neg herr] at hmem
              simp at hmem
              exact ⟨hmem.1, hmem.2⟩

/-- C8 witness: the amended default behaviour at a concrete params
object supplying its own `count`. -/
theorem claim_C8_amended_defaults_witness :
    (([("search_query", Json.str (JStr.atom "test")),
        ("count", Json.num 5)].map
        (Prod.fst (α := String) (β := Json))).Nodup)
    ∧ (jsToParams (Json.str (JStr.atom "q"))
        = [("search_query", Json.str (JStr.atom "q")),
           ("count", Json.num 10),
           ("content_size", Json.str (JStr.atom "medium")),
           ("location", Json.str (JStr.atom "cn"))]
      ∧ jget (Json.obj (jsToParams (Json.obj
            [("search_query", Json.str (JStr.atom "test")),
             ("count", Json.num 5)]))) "count"
        = some ((jget (Json.obj
            [("search_query", Json.str (JStr.atom "test")),
             ("count", Json.num 5)]) "count").getD (Json.num 10))
      ∧ jget (Json.obj (jsToParams (Json.obj
            [("search_query", Json.str (JStr.atom "test")),
             ("count", Json.num 5)]))) "content_size"
        = some ((jget (Json.obj
            [("search_query", Json.str (JStr.atom "test")),
             ("count", Json.num 5)]) "content_size").getD
            (Json.str (JStr.atom "medium")))
      ∧ jget (Json.obj (jsToParams (Json.obj
            [("search_query", Json.str (JStr.atom "test")),
             ("count", Json.num 5)]))) "location"
        = some ((jget (Json.obj
            [("search_query", Json.str (JStr.atom "test")),
             ("count", Json.num 5)]) "location").getD
            (Json.str (JStr.atom "cn")))
      ∧ (∀ k v, ([("search_query", Json.str (JStr.atom "test")),
            ("count", Json.num 5)] : List (String × Json)).lookup k
            = some v →
          jget (Json.obj (jsToParams (Json.obj
            [("search_query", Json.str (JStr.atom "test")),
             ("count", Json.num 5)]))) k = some v)
      ∧ (jget (Json.obj [("search_query", Json.str (JStr.atom "test")),
            ("count", Json.num 5)]) "search_recency_filter" = none →
          jget (Json.obj (jsToParams (Json.obj
            [("search_query", Json.str (JStr.atom "test")),
             ("count", Json.num 5)]))) "search_recency_filter" = none)
      ∧ (∀ input options w st n args,
          NetCall.callTool n args ∈
            (webSearchPrime input options w st).2.2 →
          n = TOOL_NAME ∧ args = jsToParams input)) :=
  ⟨by decide,
    claim_C8_amended_defaults (JStr.atom "q")
      [("search_query", Json.str (JStr.atom "test")), ("count", Json.num 5)]
      (by decide)⟩
